import Mathlib

/-! # School management server: relational store and request handlers

Shallow embedding of `src/server.js`.  The server keeps all of its state in one
SQLite database and every handler issues exactly one SQL statement through
`db.run` (writes) or `db.all` (reads).  The embedding therefore has three layers:

* the tables, as lists of rows in rowid order (`Store`);
* the SQL statements of the handlers, as functions on `Store` that return what
  the `db.run` callback observes (`RunResult`: the `err` argument and the
  `lastID` / `changes` properties of `this`);
* the handlers themselves, which turn a `RunResult` into the JSON `Response`.

SQLite behaviour the statements rely on, as modelled here:

* a request field reaches SQLite as the JavaScript value of `req.body`: an
  absent field or `null` binds `NULL`, a string binds text, a number with a
  whole value in the 32-bit range binds an integer and any other number a
  floating-point number, a boolean binds `1` or `0`, an array or object binds
  the text `[object Object]`;
* a number of `req.body` is a double: `JSON.parse` reads an integer literal
  beyond `2 ^ 53` as the nearest double, and `res.json` sends a stored integer
  the same way;
* the bound value is then converted by the affinity of its column: a TEXT
  column turns numbers into their decimal text, an INTEGER column turns text
  that reads as a number, and floating-point numbers with a whole value below
  `2 ^ 63` in magnitude, into integers, and keeps any other text as text;
* a column without `NOT NULL` accepts `NULL`;
* `INTEGER PRIMARY KEY` without `AUTOINCREMENT` assigns `max(id) + 1`
  (`1` in an empty table);
* `UNIQUE` treats `NULL`s as distinct from every value, `NULL` included;
* `x = y` and `x || y` are `NULL` as soon as one operand is `NULL`, and a
  `NULL` join or `WHERE` condition rejects the row;
* `changes` counts the rows matched by the `WHERE` clause of an `UPDATE` or
  `DELETE`, whether or not a value actually changed;
* foreign-key declarations are only enforced after `PRAGMA foreign_keys = ON`,
  which `server.js` never issues: the `FOREIGN KEY` clauses of the schema
  do not restrict any statement;
* a statement that violates a constraint changes nothing and calls the
  callback with `err` set, on a statement object that has no `lastID` and no
  `changes` property.

Route parameters (`req.params.id`) reach SQLite as text and are compared with
the integer key under numeric affinity; a parameter that names no row behaves
like any natural number that is not a key, so keys are `Nat` here.  Numbers
with a fraction are floating-point values and are not represented: a request
number is given by its whole value, and a floating-point number that a column
keeps (`SqlValue.real`) is kept by its source, without its arithmetic value.
The settings routes and the static route never touch `db` and are not part of
the store.
-/

namespace SchoolDB

/-! ## Values -/

/-- A field of `req.body` as the handler reads it: `null` (also an absent
field), a boolean, a number with a whole value, a string, or an array or
object.  `number n` stands for the integer literal `n` of the JSON text. -/
inductive Json where
  | null
  | bool (b : Bool)
  | number (n : Int)
  | string (s : String)
  | object
deriving DecidableEq

/-- A stored value of a column with INTEGER or REAL affinity.  `real src` is
the floating-point number that SQLite reads from `src`. -/
inductive SqlValue where
  | null
  | integer (n : Int)
  | real (src : Json)
  | text (s : String)
deriving DecidableEq

/-- Number of halvings that bring `a` below `2 ^ 53`: the binary exponent of
the last place of the double nearest to `a`. -/
def ulpShift : Nat → Nat → Nat
  | 0, _ => 0
  | fuel + 1, a => if a < 2 ^ 53 then 0 else ulpShift fuel (a / 2) + 1

/-- The natural number `a` rounded to 53 significant bits, ties to even. -/
def roundNat (a : Nat) : Nat :=
  let sh := ulpShift a a
  let q := a / 2 ^ sh
  let r := a % 2 ^ sh
  if 2 * r > 2 ^ sh ∨ (2 * r = 2 ^ sh ∧ q % 2 = 1) then (q + 1) * 2 ^ sh else q * 2 ^ sh

/-- The JavaScript number that `JSON.parse` reads from the integer literal
`n`, and that `res.json` sends for the stored integer `n`: the nearest double.
A result of `2 ^ 1024` or more stands for `Infinity`. -/
def toDouble (n : Int) : Int :=
  if n < 0 then -(roundNat n.natAbs : Int) else (roundNat n.natAbs : Int)

/-- Digits after the decimal point with the trailing zeros removed, one digit
at least. -/
def trimZeros (ds : List Char) : List Char :=
  match (ds.reverse.dropWhile fun c => c == '0').reverse with
  | [] => ['0']
  | t => t

/-- Text that a TEXT column keeps for the floating-point number with whole
value `d` (format `%!.15g`): all digits and `.0` below `10 ^ 15`, fifteen
significant digits and an exponent from there on. -/
def renderReal (d : Int) : String :=
  let a := d.natAbs
  let sign := if d < 0 then "-" else ""
  if a ≥ 2 ^ 1024 then sign ++ "Inf"
  else if a < 10 ^ 15 then sign ++ toString a ++ ".0"
  else
    let e := (toString a).length - 1
    let m := (a + 5 * 10 ^ (e - 15)) / 10 ^ (e - 14)
    let e2 := if m ≥ 10 ^ 15 then e + 1 else e
    let m2 := if m ≥ 10 ^ 15 then m / 10 else m
    let ds := (toString m2).toList
    sign ++ String.mk (ds.take 1) ++ "." ++ String.mk (trimZeros (ds.drop 1)) ++ "e+" ++
      (if e2 < 10 then "0" else "") ++ toString e2

/-- White space of SQLite: space, tab, line feed, vertical tab, form feed,
carriage return. -/
def isSpace (c : Char) : Bool := c.toNat == 32 || (9 ≤ c.toNat && c.toNat ≤ 13)

/-- Value of a run of decimal digits. -/
def digitsValue (ds : List Char) : Nat := ds.foldl (fun a c => 10 * a + (c.toNat - 48)) 0

/-- How SQLite reads a text as a number: not at all, as the whole number `k`
(digits only), or as `m * 10 ^ e` (written with a point or an exponent). -/
inductive TextNumber where
  | notNumber
  | whole (k : Int)
  | decimal (m : Int) (e : Int)
deriving DecidableEq

/-- An optional sign in front of a number or of an exponent. -/
def readSign : List Char → Bool × List Char
  | '-' :: t => (true, t)
  | '+' :: t => (false, t)
  | cs => (false, cs)

/-- The number grammar of SQLite: white space, sign, digits, an optional
point and digits, an optional exponent with its digits, white space; one digit
at least before the exponent. -/
def readNumber (s : String) : TextNumber :=
  let (neg, cs) := readSign (s.toList.dropWhile isSpace)
  let ints := cs.takeWhile Char.isDigit
  let cs := cs.dropWhile Char.isDigit
  let point := cs.head? == some '.'
  let fracs := if point then (cs.drop 1).takeWhile Char.isDigit else []
  let cs := if point then (cs.drop 1).dropWhile Char.isDigit else cs
  let expo := cs.head? == some 'e' || cs.head? == some 'E'
  let (eneg, es) := if expo then readSign (cs.drop 1) else (false, [])
  let edigits := es.takeWhile Char.isDigit
  let cs := if expo then es.dropWhile Char.isDigit else cs
  let m : Int := if neg then -(digitsValue (ints ++ fracs) : Int) else digitsValue (ints ++ fracs)
  let e : Int :=
    (if eneg then -(digitsValue edigits : Int) else digitsValue edigits) - fracs.length
  if (cs.dropWhile isSpace).isEmpty ∧ ¬ (ints ++ fracs).isEmpty ∧ (expo → ¬ edigits.isEmpty) then
    if point ∨ expo then .decimal m e else .whole m
  else .notNumber

/-- A floating-point number with whole value `d` in an INTEGER column: an
integer when `d` lies strictly between `-2 ^ 63` and `2 ^ 63`, kept as a
floating-point number otherwise. -/
def wholeReal (d : Int) (src : Json) : SqlValue :=
  if -(2 ^ 63 : Int) < d ∧ d < 2 ^ 63 then .integer d else .real src

/-- Value kept by a column with TEXT affinity. -/
def textAffinity : Json → Option String
  | .null => none
  | .bool b => some (if b then "1" else "0")
  | .number n =>
    if -(2 ^ 31 : Int) ≤ toDouble n ∧ toDouble n < 2 ^ 31 then some (toString (toDouble n))
    else some (renderReal (toDouble n))
  | .string s => some s
  | .object => some "[object Object]"

/-- Value kept by a column with INTEGER affinity.  A text written with a point
or an exponent is an integer when its exact value is whole, and is kept as a
floating-point number otherwise. -/
def integerAffinity : Json → SqlValue
  | .null => .null
  | .bool b => .integer (if b then 1 else 0)
  | .number n => wholeReal (toDouble n) (.number n)
  | .string s =>
    match readNumber s with
    | .notNumber => .text s
    | .whole k =>
      if -(2 ^ 63 : Int) ≤ k ∧ k < 2 ^ 63 then .integer k else .real (.string s)
    | .decimal m e =>
      if 0 ≤ e then wholeReal (toDouble (m * 10 ^ e.toNat)) (.string s)
      else if m % 10 ^ (-e).toNat = 0 then
        wholeReal (toDouble (m / 10 ^ (-e).toNat)) (.string s)
      else .real (.string s)
  | .object => .text "[object Object]"

/-- Value kept by a column with REAL affinity: every number and every text
that reads as a number is a floating-point number. -/
def realAffinity : Json → SqlValue
  | .null => .null
  | .bool b => .real (.bool b)
  | .number n => .real (.number n)
  | .string s =>
    match readNumber s with
    | .notNumber => .text s
    | _ => .real (.string s)
  | .object => .text "[object Object]"

/-- JSON that `res.json` sends for a stored text. -/
def textToJson : Option String → Json
  | none => .null
  | some s => .string s

/-- JSON that `res.json` sends for a stored value of an INTEGER column; a
floating-point number is not represented. -/
def SqlValue.toJson? : SqlValue → Option Json
  | .null => some .null
  | .integer n => some (.number (toDouble n))
  | .text s => some (.string s)
  | .real _ => none

/-- A request field that a TEXT column keeps as it is: a string or `null`. -/
def Json.isText : Json → Bool
  | .null => true
  | .string _ => true
  | _ => false

/-- A request field that an INTEGER column keeps as it is: `null` or a whole
number below `2 ^ 53` in magnitude. -/
def Json.isSafeInteger : Json → Bool
  | .null => true
  | .number n => n.natAbs < 2 ^ 53
  | _ => false

/-! ## Rows (the `CREATE TABLE` statements, lines 24-32) -/

/-- Row of `staff_roles (id INTEGER PRIMARY KEY, role_name TEXT UNIQUE)`. -/
structure StaffRoleRow where
  id : Nat
  role_name : Option String
deriving DecidableEq

/-- Row of `classes (id INTEGER PRIMARY KEY, name TEXT UNIQUE)`. -/
structure ClassRow where
  id : Nat
  name : Option String
deriving DecidableEq

/-- Row of `sections`, with `UNIQUE(class_id, section_name)`. -/
structure SectionRow where
  id : Nat
  class_id : SqlValue
  section_name : Option String
  teacher_id : SqlValue
deriving DecidableEq

/-- The nine fields of `req.body` that `POST` and `PUT /api/students` bind,
in the order of the destructuring (lines 94 and 101). -/
structure StudentBody where
  name : Json
  section_id : Json
  dob : Json
  gender : Json
  phone : Json
  parent_name : Json
  parent_phone : Json
  address : Json
  bus_stop_id : Json
deriving DecidableEq

/-- The nine columns of `students` that the handlers write, as stored. -/
structure StudentFields where
  name : Option String
  section_id : SqlValue
  dob : Option String
  gender : Option String
  phone : Option String
  parent_name : Option String
  parent_phone : Option String
  address : Option String
  bus_stop_id : SqlValue
deriving DecidableEq

/-- Row of `students`: the key, the nine written columns and
`status TEXT NOT NULL DEFAULT 'Active'`. -/
structure StudentRow extends StudentFields where
  id : Nat
  status : String
deriving DecidableEq

/-- The submitted student fields after the affinity of their columns. -/
def StudentBody.toFields (b : StudentBody) : StudentFields :=
  { name := textAffinity b.name
    section_id := integerAffinity b.section_id
    dob := textAffinity b.dob
    gender := textAffinity b.gender
    phone := textAffinity b.phone
    parent_name := textAffinity b.parent_name
    parent_phone := textAffinity b.parent_phone
    address := textAffinity b.address
    bus_stop_id := integerAffinity b.bus_stop_id }

/-- The nine written columns of a student row as a listing sends them. -/
def StudentFields.toBody? (f : StudentFields) : Option StudentBody :=
  match f.section_id.toJson?, f.bus_stop_id.toJson? with
  | some sec, some stop =>
    some ⟨textToJson f.name, sec, textToJson f.dob, textToJson f.gender, textToJson f.phone,
      textToJson f.parent_name, textToJson f.parent_phone, textToJson f.address, stop⟩
  | _, _ => none

/-- Student fields that their columns keep as they are. -/
def StudentBody.typed (b : StudentBody) : Bool :=
  b.name.isText && b.section_id.isSafeInteger && b.dob.isText && b.gender.isText &&
    b.phone.isText && b.parent_name.isText && b.parent_phone.isText && b.address.isText &&
    b.bus_stop_id.isSafeInteger

/-- The eight fields of `req.body` that `POST` and `PUT /api/staff` bind
(lines 124 and 131). -/
structure StaffBody where
  name : Json
  role_id : Json
  phone : Json
  dob : Json
  gender : Json
  address : Json
  hire_date : Json
  qualifications : Json
deriving DecidableEq

/-- The eight columns of `staff` that the handlers write, as stored. -/
structure StaffFields where
  name : Option String
  role_id : SqlValue
  phone : Option String
  dob : Option String
  gender : Option String
  address : Option String
  hire_date : Option String
  qualifications : Option String
deriving DecidableEq

/-- Row of `staff`: the key, the eight written columns and
`status TEXT NOT NULL DEFAULT 'Active'`. -/
structure StaffRow extends StaffFields where
  id : Nat
  status : String
deriving DecidableEq

/-- The submitted staff fields after the affinity of their columns. -/
def StaffBody.toFields (b : StaffBody) : StaffFields :=
  { name := textAffinity b.name
    role_id := integerAffinity b.role_id
    phone := textAffinity b.phone
    dob := textAffinity b.dob
    gender := textAffinity b.gender
    address := textAffinity b.address
    hire_date := textAffinity b.hire_date
    qualifications := textAffinity b.qualifications }

/-- The eight written columns of a staff row as a listing sends them. -/
def StaffFields.toBody? (f : StaffFields) : Option StaffBody :=
  match f.role_id.toJson? with
  | some role =>
    some ⟨textToJson f.name, role, textToJson f.phone, textToJson f.dob, textToJson f.gender,
      textToJson f.address, textToJson f.hire_date, textToJson f.qualifications⟩
  | none => none

/-- Staff fields that their columns keep as they are. -/
def StaffBody.typed (b : StaffBody) : Bool :=
  b.name.isText && b.role_id.isSafeInteger && b.phone.isText && b.dob.isText &&
    b.gender.isText && b.address.isText && b.hire_date.isText && b.qualifications.isText

/-- Row of `bus_routes`. -/
structure BusRouteRow where
  id : Nat
  route_name : String
  driver_id : SqlValue
deriving DecidableEq

/-- Row of `bus_stops`. -/
structure BusStopRow where
  id : Nat
  bus_route_id : SqlValue
  stop_name : String
  fee_amount : SqlValue
deriving DecidableEq

/-- Row of `fees`. -/
structure FeeRow where
  id : Nat
  student_id : SqlValue
  amount : SqlValue
  status : String
  due_date : Option String
  fee_type : Option String
deriving DecidableEq

/-- Row of `fee_structures`. -/
structure FeeStructureRow where
  id : Nat
  class_id : SqlValue
  fee_type : String
  amount : SqlValue
deriving DecidableEq

/-- The database `school.db`: one list of rows per table of line 21. -/
structure Store where
  students : List StudentRow
  staff : List StaffRow
  classes : List ClassRow
  sections : List SectionRow
  bus_routes : List BusRouteRow
  bus_stops : List BusStopRow
  fees : List FeeRow
  fee_structures : List FeeStructureRow
  staff_roles : List StaffRoleRow
deriving DecidableEq

/-! ## What a handler sees and answers -/

/-- What the callback of `db.run` observes: its `err` argument and the
`lastID` and `changes` properties of `this`. -/
structure RunResult where
  err : Option String
  lastID : Option Nat
  changes : Option Nat
deriving DecidableEq

/-- Successful `INSERT`: one row written under key `id`. -/
def RunResult.inserted (id : Nat) : RunResult := ⟨none, some id, some 1⟩

/-- Successful `UPDATE` or `DELETE` that matched `n` rows.  The `lastID` of
such a statement is read by no handler and is left out. -/
def RunResult.changed (n : Nat) : RunResult := ⟨none, none, some n⟩

/-- Statement rejected by a constraint. -/
def RunResult.failed (msg : String) : RunResult := ⟨some msg, none, none⟩

/-- JSON answers of the write handlers.  `id` and `changes` are sent with
the default status 200; a property whose value is `undefined` is `none`. -/
inductive Response where
  /-- Answer `res.json({ id: this.lastID })`. -/
  | id (lastID : Option Nat)
  /-- Answer `res.json({ changes: this.changes })`. -/
  | changes (n : Option Nat)
  /-- Answer `res.status(code).json({ error: message })`. -/
  | error (code : Nat) (message : String)
deriving DecidableEq

/-- Whether the answer is an error answer (non-2xx status with a message). -/
def Response.isError : Response → Bool
  | .error _ _ => true
  | _ => false

/-! ## SQL building blocks -/

/-- Key given to the next row of a table whose keys are `ids`. -/
def nextRowid (ids : List Nat) : Nat := ids.foldr max 0 + 1

/-- SQL `a || b`. -/
def sqlConcat : Option String → Option String → Option String
  | some a, some b => some (a ++ b)
  | _, _ => none

/-- SQL `fk = key` as a join or `WHERE` condition, for a stored value `fk`
and an integer key: true only for the integer `key`. -/
def sqlEq (fk : SqlValue) (key : Nat) : Bool := fk == .integer key

/-- A column of a left-joined row: `NULL` when the join found no partner. -/
def columnOf {α : Type} (row : Option α) (col : α → SqlValue) : SqlValue :=
  match row with
  | some r => col r
  | none => .null

/-- Rows of `l JOIN r ON cond`. -/
def innerJoin {α β : Type} (l : List α) (r : List β) (cond : α → β → Bool) : List (α × β) :=
  l.flatMap fun a => (r.filter (cond a)).map fun b => (a, b)

/-- Rows of `l LEFT JOIN r ON cond`: a row of `l` without partner is kept once,
with `NULL`s on the right. -/
def leftJoin {α β : Type} (l : List α) (r : List β) (cond : α → β → Bool) :
    List (α × Option β) :=
  l.flatMap fun a =>
    match r.filter (cond a) with
    | [] => [(a, none)]
    | b :: bs => (b :: bs).map fun x => (a, some x)

/-! ## The SQL statements of the handlers -/

/-- Statement `INSERT INTO staff_roles (role_name) VALUES (?)` (line 58). -/
def insertStaffRole (db : Store) (role_name : Json) : Store × RunResult :=
  if (textAffinity role_name).isSome ∧
      db.staff_roles.any (fun r => r.role_name == textAffinity role_name) then
    (db, .failed "SQLITE_CONSTRAINT: UNIQUE constraint failed: staff_roles.role_name")
  else
    let id := nextRowid (db.staff_roles.map (·.id))
    ({ db with staff_roles := db.staff_roles ++ [⟨id, textAffinity role_name⟩] }, .inserted id)

/-- Statement `INSERT OR IGNORE INTO staff_roles (role_name) VALUES (?)` of the
seeding loop (line 35): a conflicting row is skipped without error. -/
def insertOrIgnoreStaffRole (db : Store) (role_name : String) : Store :=
  if db.staff_roles.any (fun r => r.role_name == some role_name) then db
  else
    { db with staff_roles :=
        db.staff_roles ++ [⟨nextRowid (db.staff_roles.map (·.id)), some role_name⟩] }

/-- Statement `DELETE FROM staff_roles WHERE id = ?` (line 59). -/
def deleteStaffRole (db : Store) (id : Nat) : Store × RunResult :=
  ({ db with staff_roles := db.staff_roles.filter (fun r => r.id != id) },
   .changed (db.staff_roles.filter (fun r => r.id == id)).length)

/-- Statement `INSERT INTO classes (name) VALUES (?)` (line 63). -/
def insertClass (db : Store) (name : Json) : Store × RunResult :=
  if (textAffinity name).isSome ∧ db.classes.any (fun c => c.name == textAffinity name) then
    (db, .failed "SQLITE_CONSTRAINT: UNIQUE constraint failed: classes.name")
  else
    let id := nextRowid (db.classes.map (·.id))
    ({ db with classes := db.classes ++ [⟨id, textAffinity name⟩] }, .inserted id)

/-- Statement `DELETE FROM classes WHERE id = ?` (line 64). -/
def deleteClass (db : Store) (id : Nat) : Store × RunResult :=
  ({ db with classes := db.classes.filter (fun c => c.id != id) },
   .changed (db.classes.filter (fun c => c.id == id)).length)

/-- Statement `INSERT INTO sections (class_id, section_name, teacher_id)
VALUES (?, ?, ?)` (line 72). -/
def insertSection (db : Store) (class_id section_name teacher_id : Json) :
    Store × RunResult :=
  if integerAffinity class_id ≠ .null ∧ (textAffinity section_name).isSome ∧
      db.sections.any (fun s => s.class_id == integerAffinity class_id &&
        s.section_name == textAffinity section_name) then
    (db, .failed
      "SQLITE_CONSTRAINT: UNIQUE constraint failed: sections.class_id, sections.section_name")
  else
    let id := nextRowid (db.sections.map (·.id))
    ({ db with sections := db.sections ++
        [⟨id, integerAffinity class_id, textAffinity section_name, integerAffinity teacher_id⟩] },
     .inserted id)

/-- Statement `DELETE FROM sections WHERE id = ?` (line 73). -/
def deleteSection (db : Store) (id : Nat) : Store × RunResult :=
  ({ db with sections := db.sections.filter (fun s => s.id != id) },
   .changed (db.sections.filter (fun s => s.id == id)).length)

/-- Statement `INSERT INTO fee_structures (class_id, fee_type, amount)
VALUES (?, ?, ?)` (line 77); `fee_type` and `amount` are `NOT NULL`. -/
def insertFeeStructure (db : Store) (class_id fee_type amount : Json) : Store × RunResult :=
  match textAffinity fee_type, realAffinity amount with
  | none, _ =>
    (db, .failed "SQLITE_CONSTRAINT: NOT NULL constraint failed: fee_structures.fee_type")
  | some _, .null =>
    (db, .failed "SQLITE_CONSTRAINT: NOT NULL constraint failed: fee_structures.amount")
  | some ft, a =>
    let id := nextRowid (db.fee_structures.map (·.id))
    ({ db with fee_structures := db.fee_structures ++ [⟨id, integerAffinity class_id, ft, a⟩] },
     .inserted id)

/-- Statement `DELETE FROM fee_structures WHERE id = ?` (line 78). -/
def deleteFeeStructure (db : Store) (id : Nat) : Store × RunResult :=
  ({ db with fee_structures := db.fee_structures.filter (fun f => f.id != id) },
   .changed (db.fee_structures.filter (fun f => f.id == id)).length)

/-- Statement `INSERT INTO students (name, ..., bus_stop_id) VALUES (?, ..., ?)`
(line 95): `name` is `NOT NULL`, `status` takes its default `'Active'`. -/
def insertStudent (db : Store) (b : StudentBody) : Store × RunResult :=
  if b.toFields.name.isNone then
    (db, .failed "SQLITE_CONSTRAINT: NOT NULL constraint failed: students.name")
  else
    let id := nextRowid (db.students.map (·.id))
    ({ db with students := db.students ++ [{ b.toFields with id := id, status := "Active" }] },
     .inserted id)

/-- Statement `UPDATE students SET name = ?, ..., bus_stop_id = ? WHERE id = ?`
(line 102).  The `NOT NULL` check on `name` is made on each row that is
written, so an absent key never fails. -/
def updateStudent (db : Store) (id : Nat) (b : StudentBody) : Store × RunResult :=
  if b.toFields.name.isNone ∧ db.students.any (fun s => s.id == id) then
    (db, .failed "SQLITE_CONSTRAINT: NOT NULL constraint failed: students.name")
  else
    ({ db with students := db.students.map fun s =>
          if s.id == id then { b.toFields with id := s.id, status := s.status } else s },
     .changed (db.students.filter (fun s => s.id == id)).length)

/-- Statement `UPDATE students SET status = ? WHERE id = ?` with `'Left'`
(line 107). -/
def archiveStudent (db : Store) (id : Nat) : Store × RunResult :=
  ({ db with students := db.students.map fun s =>
        if s.id == id then { s with status := "Left" } else s },
   .changed (db.students.filter (fun s => s.id == id)).length)

/-- Statement `INSERT INTO staff (name, ..., qualifications) VALUES (?, ..., ?)`
(line 125). -/
def insertStaff (db : Store) (b : StaffBody) : Store × RunResult :=
  if b.toFields.name.isNone then
    (db, .failed "SQLITE_CONSTRAINT: NOT NULL constraint failed: staff.name")
  else
    let id := nextRowid (db.staff.map (·.id))
    ({ db with staff := db.staff ++ [{ b.toFields with id := id, status := "Active" }] },
     .inserted id)

/-- Statement `UPDATE staff SET name = ?, ..., qualifications = ? WHERE id = ?`
(line 132). -/
def updateStaff (db : Store) (id : Nat) (b : StaffBody) : Store × RunResult :=
  if b.toFields.name.isNone ∧ db.staff.any (fun s => s.id == id) then
    (db, .failed "SQLITE_CONSTRAINT: NOT NULL constraint failed: staff.name")
  else
    ({ db with staff := db.staff.map fun s =>
          if s.id == id then { b.toFields with id := s.id, status := s.status } else s },
     .changed (db.staff.filter (fun s => s.id == id)).length)

/-- Statement `UPDATE staff SET status = ? WHERE id = ?` with `'Left'`
(line 137). -/
def archiveStaff (db : Store) (id : Nat) : Store × RunResult :=
  ({ db with staff := db.staff.map fun s =>
        if s.id == id then { s with status := "Left" } else s },
   .changed (db.staff.filter (fun s => s.id == id)).length)

/-! ## Read handlers (`db.all`) -/

/-- Row of `GET /api/sections`: `s.*`, `teacher_name`, `class_name`. -/
structure SectionView where
  row : SectionRow
  teacher_name : Option String
  class_name : Option String
deriving DecidableEq

/-- Row of `GET /api/fee-structures`: `fs.*`, `class_name`. -/
structure FeeStructureView where
  row : FeeStructureRow
  class_name : Option String
deriving DecidableEq

/-- Row of the student listings: `s.*`, `class_name`. -/
structure StudentView where
  row : StudentRow
  class_name : Option String
deriving DecidableEq

/-- Row of the staff listings: `s.*`, `role_name`. -/
structure StaffView where
  row : StaffRow
  role_name : Option String
deriving DecidableEq

/-- Handler `GET /api/staff-roles` (line 57). -/
def getStaffRoles (db : Store) : List StaffRoleRow := db.staff_roles

/-- Handler `GET /api/classes` (line 62). -/
def getClasses (db : Store) : List ClassRow := db.classes

/-- Order of the index of `UNIQUE(class_id, section_name)` among sections of
one class: `NULL` names first, then names in byte order. -/
def nameLe (a b : SectionRow) : Bool :=
  match a.section_name, b.section_name with
  | none, _ => true
  | some _, none => false
  | some x, some y => !decide (y < x)

/-- Handler `GET /api/sections` (lines 67-71): sections joined to their class,
left-joined to their teacher.  Without filter the sections are read in rowid
order; with a `class_id` filter they are read through the index of
`UNIQUE(class_id, section_name)`, by section name. -/
def getSections (db : Store) (class_id : Option Nat) : List SectionView :=
  let secs :=
    match class_id with
    | none => db.sections
    | some k => (db.sections.filter fun s => sqlEq s.class_id k).mergeSort nameLe
  (leftJoin (innerJoin secs db.classes fun s c => sqlEq s.class_id c.id) db.staff
      fun sc t => sqlEq sc.1.teacher_id t.id).map
    fun x => ⟨x.1.1, x.2.bind (·.name), x.1.2.name⟩

/-- Handler `GET /api/fee-structures` (line 76). -/
def getFeeStructures (db : Store) : List FeeStructureView :=
  (innerJoin db.fee_structures db.classes fun f c => sqlEq f.class_id c.id).map
    fun x => ⟨x.1, x.2.name⟩

/-- The query of both student listings (lines 82 and 88), for the status
literal `status`: students left-joined to their section, then to the class of
that section, with `class_name` as `c.name || ' ' || sec.section_name`.  A
column of a row that a left join filled with `NULL`s is `NULL`. -/
def selectStudents (db : Store) (status : String) : List StudentView :=
  let joined :=
    leftJoin (leftJoin db.students db.sections fun s sec => sqlEq s.section_id sec.id)
      db.classes fun p c => sqlEq (columnOf p.2 (·.class_id)) c.id
  (joined.filter fun x => x.1.1.status == status).map fun x =>
    ⟨x.1.1, sqlConcat (sqlConcat (x.2.bind (·.name)) (some " ")) (x.1.2.bind (·.section_name))⟩

/-- Handler `GET /api/students` (lines 81-86). -/
def getStudents (db : Store) : List StudentView := selectStudents db "Active"

/-- Handler `GET /api/students/archived` (lines 87-92). -/
def getStudentsArchived (db : Store) : List StudentView := selectStudents db "Left"

/-- Handler `GET /api/students/:id/fees` (line 108). -/
def getStudentFees (db : Store) (id : Nat) : List FeeRow :=
  db.fees.filter fun f => sqlEq f.student_id id

/-- The query of both staff listings (lines 112 and 118), for the bound
status `status`: staff joined to their role. -/
def selectStaff (db : Store) (status : String) : List StaffView :=
  ((innerJoin db.staff db.staff_roles fun s r => sqlEq s.role_id r.id).filter
    fun x => x.1.status == status).map fun x => ⟨x.1, x.2.role_name⟩

/-- Handler `GET /api/staff` (lines 111-116). -/
def getStaff (db : Store) : List StaffView := selectStaff db "Active"

/-- Handler `GET /api/staff/archived` (lines 117-122). -/
def getStaffArchived (db : Store) : List StaffView := selectStaff db "Left"

/-! ## Write handlers (`db.run`) -/

/-- Callback `function(err) { res.json({ id: this.lastID }); }`. -/
def answerId (r : RunResult) : Response := .id r.lastID

/-- Callback `function(err) { res.json({ changes: this.changes }); }`. -/
def answerChanges (r : RunResult) : Response := .changes r.changes

/-- Callback of `POST /api/students` and `POST /api/staff`: status 500 with
the message when `err` is set, the new key otherwise. -/
def answerIdChecked (r : RunResult) : Response :=
  match r.err with
  | some m => .error 500 m
  | none => .id r.lastID

/-- Callback of `PUT /api/students/:id` and `PUT /api/staff/:id`: status 500
with the message when `err` is set, the row count otherwise. -/
def answerChangesChecked (r : RunResult) : Response :=
  match r.err with
  | some m => .error 500 m
  | none => .changes r.changes

/-- Handler `POST /api/staff-roles` (line 58). -/
def postStaffRoles (db : Store) (role_name : Json) : Store × Response :=
  ((insertStaffRole db role_name).1, answerId (insertStaffRole db role_name).2)

/-- Handler `DELETE /api/staff-roles/:id` (line 59). -/
def deleteStaffRoles (db : Store) (id : Nat) : Store × Response :=
  ((deleteStaffRole db id).1, answerChanges (deleteStaffRole db id).2)

/-- Handler `POST /api/classes` (line 63). -/
def postClasses (db : Store) (name : Json) : Store × Response :=
  ((insertClass db name).1, answerId (insertClass db name).2)

/-- Handler `DELETE /api/classes/:id` (line 64). -/
def deleteClasses (db : Store) (id : Nat) : Store × Response :=
  ((deleteClass db id).1, answerChanges (deleteClass db id).2)

/-- Handler `POST /api/sections` (line 72). -/
def postSections (db : Store) (class_id section_name teacher_id : Json) :
    Store × Response :=
  ((insertSection db class_id section_name teacher_id).1,
   answerId (insertSection db class_id section_name teacher_id).2)

/-- Handler `DELETE /api/sections/:id` (line 73). -/
def deleteSections (db : Store) (id : Nat) : Store × Response :=
  ((deleteSection db id).1, answerChanges (deleteSection db id).2)

/-- Handler `POST /api/fee-structures` (line 77). -/
def postFeeStructures (db : Store) (class_id fee_type amount : Json) :
    Store × Response :=
  ((insertFeeStructure db class_id fee_type amount).1,
   answerId (insertFeeStructure db class_id fee_type amount).2)

/-- Handler `DELETE /api/fee-structures/:id` (line 78). -/
def deleteFeeStructures (db : Store) (id : Nat) : Store × Response :=
  ((deleteFeeStructure db id).1, answerChanges (deleteFeeStructure db id).2)

/-- Handler `POST /api/students` (lines 93-99). -/
def postStudents (db : Store) (b : StudentBody) : Store × Response :=
  ((insertStudent db b).1, answerIdChecked (insertStudent db b).2)

/-- Handler `PUT /api/students/:id` (lines 100-106). -/
def putStudents (db : Store) (id : Nat) (b : StudentBody) : Store × Response :=
  ((updateStudent db id b).1, answerChangesChecked (updateStudent db id b).2)

/-- Handler `PUT /api/students/:id/archive` (line 107). -/
def putStudentsArchive (db : Store) (id : Nat) : Store × Response :=
  ((archiveStudent db id).1, answerChanges (archiveStudent db id).2)

/-- Handler `POST /api/staff` (lines 123-129). -/
def postStaff (db : Store) (b : StaffBody) : Store × Response :=
  ((insertStaff db b).1, answerIdChecked (insertStaff db b).2)

/-- Handler `PUT /api/staff/:id` (lines 130-136). -/
def putStaff (db : Store) (id : Nat) (b : StaffBody) : Store × Response :=
  ((updateStaff db id b).1, answerChangesChecked (updateStaff db id b).2)

/-- Handler `PUT /api/staff/:id/archive` (line 137). -/
def putStaffArchive (db : Store) (id : Nat) : Store × Response :=
  ((archiveStaff db id).1, answerChanges (archiveStaff db id).2)

/-! ## Initialization and the reachable stores -/

/-- The database after the `DROP TABLE` and `CREATE TABLE` statements. -/
def Store.empty : Store := ⟨[], [], [], [], [], [], [], [], []⟩

/-- The seed list `roles` (line 34). -/
def roles : List String := ["Teacher", "Admin", "Principal", "Driver"]

/-- The database after `db.serialize` (lines 20-40): empty tables, then the
seed roles. -/
def Store.init : Store := roles.foldl insertOrIgnoreStaffRole Store.empty

/-- The requests that write the database. -/
inductive Request where
  | postStaffRoles (role_name : Json)
  | deleteStaffRoles (id : Nat)
  | postClasses (name : Json)
  | deleteClasses (id : Nat)
  | postSections (class_id section_name teacher_id : Json)
  | deleteSections (id : Nat)
  | postFeeStructures (class_id fee_type amount : Json)
  | deleteFeeStructures (id : Nat)
  | postStudents (body : StudentBody)
  | putStudents (id : Nat) (body : StudentBody)
  | putStudentsArchive (id : Nat)
  | postStaff (body : StaffBody)
  | putStaff (id : Nat) (body : StaffBody)
  | putStaffArchive (id : Nat)
deriving DecidableEq

/-- Dispatch of one request to its handler. -/
def handle (db : Store) : Request → Store × Response
  | .postStaffRoles n => postStaffRoles db n
  | .deleteStaffRoles k => deleteStaffRoles db k
  | .postClasses n => postClasses db n
  | .deleteClasses k => deleteClasses db k
  | .postSections c n t => postSections db c n t
  | .deleteSections k => deleteSections db k
  | .postFeeStructures c f a => postFeeStructures db c f a
  | .deleteFeeStructures k => deleteFeeStructures db k
  | .postStudents b => postStudents db b
  | .putStudents k b => putStudents db k b
  | .putStudentsArchive k => putStudentsArchive db k
  | .postStaff b => postStaff db b
  | .putStaff k b => putStaff db k b
  | .putStaffArchive k => putStaffArchive db k

/-- The database after a sequence of requests. -/
def run (db : Store) (rs : List Request) : Store :=
  rs.foldl (fun d r => (handle d r).1) db

/-- Stores reachable from initialization through the handlers.  The read
handlers leave the database as it is and need no constructor. -/
inductive Reachable : Store → Prop where
  | init : Reachable Store.init
  | step {db : Store} (r : Request) : Reachable db → Reachable (handle db r).1

/-- Primary keys: no table holds two rows with the same `id`. -/
structure Store.KeysUnique (db : Store) : Prop where
  students : (db.students.map (·.id)).Nodup
  staff : (db.staff.map (·.id)).Nodup
  classes : (db.classes.map (·.id)).Nodup
  sections : (db.sections.map (·.id)).Nodup
  fee_structures : (db.fee_structures.map (·.id)).Nodup
  staff_roles : (db.staff_roles.map (·.id)).Nodup

/-- The status column of both person tables holds `Active` or `Left`. -/
def Store.StatusOk (db : Store) : Prop :=
  (∀ s ∈ db.students, s.status = "Active" ∨ s.status = "Left") ∧
  (∀ s ∈ db.staff, s.status = "Active" ∨ s.status = "Left")

/-- Ids of a student listing. -/
def studentIds (l : List StudentView) : List Nat := l.map (·.row.id)

/-! ## The listings as functions of the row -/

/-- The `class_name` that the student listings compute for a student whose
`section_id` is `sid`, read off the first matching section and class. -/
def classLabel (db : Store) (sid : SqlValue) : Option String :=
  let sec := (db.sections.filter fun x => sqlEq sid x.id).head?
  let c := (db.classes.filter fun c => sqlEq (columnOf sec (·.class_id)) c.id).head?
  sqlConcat (sqlConcat (c.bind (·.name)) (some " ")) (sec.bind (·.section_name))

/-! ## Example stores -/

/-- A full field set for the student Jane of section 1: strings for the text
columns, whole numbers for the two references. -/
def janeBody : StudentBody :=
  ⟨.string "Jane", .number 1, .string "2014-03-01", .string "F", .string "555-0100",
    .string "Ann", .string "555-0101", .string "1 Main St", .number 2⟩

/-- Jane with `section_id` sent as the string `"1"`, `phone` as the number
`5550100` and `bus_stop_id` as a whole number above `2 ^ 53`. -/
def looseJaneBody : StudentBody :=
  ⟨.string "Jane", .string "1", .string "2014-03-01", .string "F", .number 5550100,
    .string "Ann", .string "555-0101", .string "1 Main St", .number 9007199254740993⟩

/-- A student without section. -/
def tomBody : StudentBody :=
  ⟨.string "Tom", .null, .null, .null, .null, .null, .null, .null, .null⟩

/-- A field set in which every field is absent. -/
def emptyStudentBody : StudentBody :=
  ⟨.null, .null, .null, .null, .null, .null, .null, .null, .null⟩

/-- A staff member with the seeded role Teacher. -/
def aliceBody : StaffBody :=
  ⟨.string "Alice", .number 1, .string "555-0200", .string "1980-05-05", .string "F",
    .string "2 High St", .string "2010-09-01", .string "MSc"⟩

/-- A staff member created without `role_id`. -/
def bobBody : StaffBody :=
  ⟨.string "Bob", .null, .null, .null, .null, .null, .null, .null⟩

/-- The scenario of the class Grade 5, its section A and the student Jane. -/
def janeRequests : List Request :=
  [.postClasses (.string "Grade 5"), .postSections (.number 1) (.string "A") .null,
   .postStudents janeBody]

/-- The store after the Jane scenario. -/
def janeStore : Store := run Store.init janeRequests

/-- The store with the class Grade 5 and its section A, before any student. -/
def gradeStore : Store :=
  run Store.init [.postClasses (.string "Grade 5"), .postSections (.number 1) (.string "A") .null]

/-- Jane and Tom enrolled, Alice and Bob hired, then Jane and Alice archived. -/
def schoolStore : Store :=
  run janeStore [.postStudents tomBody, .postStaff aliceBody, .postStaff bobBody,
    .putStudentsArchive 1, .putStaffArchive 1]

/-- A class created without a name, with a section A. -/
def namelessClassStore : Store :=
  run Store.init [.postClasses .null, .postSections (.number 1) (.string "A") .null]

/-- Alice hired as Teacher, then the role Teacher deleted. -/
def roleDeletedStore : Store :=
  run Store.init [.postStaff aliceBody, .deleteStaffRoles 1]

/-- Bob hired without role. -/
def bobStore : Store := run Store.init [.postStaff bobBody]

/-! # Lemmas -/

/-! ## Keys -/

theorem le_foldr_max {ids : List Nat} {i : Nat} (h : i ∈ ids) : i ≤ ids.foldr max 0 := by
  induction ids with
  | nil => cases h
  | cons a t ih =>
    rcases List.mem_cons.1 h with rfl | h
    · exact le_max_left _ _
    · exact le_trans (ih h) (le_max_right _ _)

theorem lt_nextRowid {ids : List Nat} {i : Nat} (h : i ∈ ids) : i < nextRowid ids :=
  Nat.lt_succ_of_le (le_foldr_max h)

theorem nextRowid_not_mem (ids : List Nat) : nextRowid ids ∉ ids :=
  fun h => lt_irrefl _ (lt_nextRowid h)

theorem nodup_append_nextRowid {ids : List Nat} (h : ids.Nodup) :
    (ids ++ [nextRowid ids]).Nodup := by
  rw [List.nodup_append]
  refine ⟨h, List.nodup_singleton _, ?_⟩
  intro a ha hb
  rw [List.mem_singleton] at hb
  exact nextRowid_not_mem ids (hb ▸ ha)

theorem nodup_map_filter {α : Type} (key : α → Nat) (p : α → Bool) {l : List α}
    (h : (l.map key).Nodup) : ((l.filter p).map key).Nodup :=
  h.sublist ((List.filter_sublist l).map key)

theorem map_key_update {α : Type} (key : α → Nat) (p : α → Bool) (f : α → α)
    (hf : ∀ a, key (f a) = key a) (l : List α) :
    (l.map fun a => if p a then f a else a).map key = l.map key := by
  rw [List.map_map]
  apply List.map_congr_left
  intro a _
  by_cases h : p a <;> simp [h, hf]

/-- In a table with unique keys, at most one row has a given key. -/
theorem filter_key_length_le_one {α : Type} (key : α → Nat) {l : List α}
    (h : (l.map key).Nodup) (k : Nat) : (l.filter fun a => key a == k).length ≤ 1 := by
  induction l with
  | nil => simp
  | cons a t ih =>
    rw [List.map_cons, List.nodup_cons] at h
    by_cases hk : key a = k
    · have : t.filter (fun a => key a == k) = [] := by
        rw [List.filter_eq_nil_iff]
        intro b hb hbk
        exact h.1 (List.mem_map.2 ⟨b, hb, by rw [hk]; exact beq_iff_eq.1 hbk⟩)
      simp [List.filter_cons, hk, this]
    · simpa [List.filter_cons, hk] using ih h.2

/-- In a table with unique keys, the rows with the key of a row of the table
are that row alone. -/
theorem filter_key_eq_singleton {α : Type} (key : α → Nat) {l : List α}
    (h : (l.map key).Nodup) {b : α} (hb : b ∈ l) :
    (l.filter fun a => key a == key b) = [b] := by
  induction l with
  | nil => cases hb
  | cons a t ih =>
    rw [List.map_cons, List.nodup_cons] at h
    rcases List.mem_cons.1 hb with rfl | hb
    · have : t.filter (fun a => key a == key b) = [] := by
        rw [List.filter_eq_nil_iff]
        intro c hc hck
        exact h.1 (List.mem_map.2 ⟨c, hc, beq_iff_eq.1 hck⟩)
      simp [List.filter_cons, this]
    · have hne : key a ≠ key b := fun e => h.1 (List.mem_map.2 ⟨b, hb, e.symm⟩)
      simpa [List.filter_cons, hne] using ih h.2 hb

theorem filter_key_length_eq_one {α : Type} (key : α → Nat) {l : List α}
    (h : (l.map key).Nodup) {k : Nat} (hk : k ∈ l.map key) :
    (l.filter fun a => key a == k).length = 1 := by
  obtain ⟨b, hb, rfl⟩ := List.mem_map.1 hk
  rw [filter_key_eq_singleton key h hb]; rfl

theorem filter_key_eq_nil {α : Type} (key : α → Nat) {l : List α} {k : Nat}
    (hk : k ∉ l.map key) : (l.filter fun a => key a == k) = [] := by
  rw [List.filter_eq_nil_iff]
  intro b hb hbk
  exact hk (List.mem_map.2 ⟨b, hb, beq_iff_eq.1 hbk⟩)

theorem filter_key_ne_eq_self {α : Type} (key : α → Nat) {l : List α} {k : Nat}
    (hk : k ∉ l.map key) : (l.filter fun a => key a != k) = l := by
  rw [List.filter_eq_self]
  intro b hb
  simp only [bne_iff_ne, ne_eq]
  intro e
  exact hk (List.mem_map.2 ⟨b, hb, e⟩)

/-! ## Invariants of the reachable stores -/

theorem keysUnique_empty : Store.empty.KeysUnique := by
  constructor <;> exact List.nodup_nil

theorem keysUnique_insertOrIgnoreStaffRole {db : Store} (h : db.KeysUnique) (n : String) :
    (insertOrIgnoreStaffRole db n).KeysUnique := by
  unfold insertOrIgnoreStaffRole
  split
  · exact h
  · refine ⟨h.students, h.staff, h.classes, h.sections, h.fee_structures, ?_⟩
    simpa using nodup_append_nextRowid h.staff_roles

theorem keysUnique_init : Store.init.KeysUnique := by
  unfold Store.init
  generalize roles = l
  have : ∀ (l : List String) (db : Store), db.KeysUnique →
      (l.foldl insertOrIgnoreStaffRole db).KeysUnique := by
    intro l
    induction l with
    | nil => intro db h; exact h
    | cons a t ih => intro db h; exact ih _ (keysUnique_insertOrIgnoreStaffRole h a)
  exact this l _ keysUnique_empty

theorem keysUnique_handle {db : Store} (h : db.KeysUnique) (r : Request) :
    (handle db r).1.KeysUnique := by
  cases r with
  | postStaffRoles n =>
    simp only [handle, postStaffRoles, insertStaffRole]
    split
    · exact h
    · refine ⟨h.students, h.staff, h.classes, h.sections, h.fee_structures, ?_⟩
      simpa using nodup_append_nextRowid h.staff_roles
  | deleteStaffRoles k =>
    exact ⟨h.students, h.staff, h.classes, h.sections, h.fee_structures,
      nodup_map_filter _ _ h.staff_roles⟩
  | postClasses n =>
    simp only [handle, postClasses, insertClass]
    split
    · exact h
    · refine ⟨h.students, h.staff, ?_, h.sections, h.fee_structures, h.staff_roles⟩
      simpa using nodup_append_nextRowid h.classes
  | deleteClasses k =>
    exact ⟨h.students, h.staff, nodup_map_filter _ _ h.classes, h.sections, h.fee_structures,
      h.staff_roles⟩
  | postSections c n t =>
    simp only [handle, postSections, insertSection]
    split
    · exact h
    · refine ⟨h.students, h.staff, h.classes, ?_, h.fee_structures, h.staff_roles⟩
      simpa using nodup_append_nextRowid h.sections
  | deleteSections k =>
    exact ⟨h.students, h.staff, h.classes, nodup_map_filter _ _ h.sections, h.fee_structures,
      h.staff_roles⟩
  | postFeeStructures c f a =>
    simp only [handle, postFeeStructures, insertFeeStructure]
    split
    · exact h
    · exact h
    · refine ⟨h.students, h.staff, h.classes, h.sections, ?_, h.staff_roles⟩
      simpa using nodup_append_nextRowid h.fee_structures
  | deleteFeeStructures k =>
    exact ⟨h.students, h.staff, h.classes, h.sections, nodup_map_filter _ _ h.fee_structures,
      h.staff_roles⟩
  | postStudents b =>
    simp only [handle, postStudents, insertStudent]
    split
    · exact h
    · refine ⟨?_, h.staff, h.classes, h.sections, h.fee_structures, h.staff_roles⟩
      simpa using nodup_append_nextRowid h.students
  | putStudents k b =>
    simp only [handle, putStudents, updateStudent]
    split
    · exact h
    · refine ⟨?_, h.staff, h.classes, h.sections, h.fee_structures, h.staff_roles⟩
      have := map_key_update (fun s : StudentRow => s.id) (fun s => s.id == k)
        (fun s => { b.toFields with id := s.id, status := s.status }) (fun _ => rfl) db.students
      simp only at this ⊢
      rw [this]; exact h.students
  | putStudentsArchive k =>
    refine ⟨?_, h.staff, h.classes, h.sections, h.fee_structures, h.staff_roles⟩
    have := map_key_update (fun s : StudentRow => s.id) (fun s => s.id == k)
      (fun s => { s with status := "Left" }) (fun _ => rfl) db.students
    simp only [handle, putStudentsArchive, archiveStudent] at this ⊢
    rw [this]; exact h.students
  | postStaff b =>
    simp only [handle, postStaff, insertStaff]
    split
    · exact h
    · refine ⟨h.students, ?_, h.classes, h.sections, h.fee_structures, h.staff_roles⟩
      simpa using nodup_append_nextRowid h.staff
  | putStaff k b =>
    simp only [handle, putStaff, updateStaff]
    split
    · exact h
    · refine ⟨h.students, ?_, h.classes, h.sections, h.fee_structures, h.staff_roles⟩
      have := map_key_update (fun s : StaffRow => s.id) (fun s => s.id == k)
        (fun s => { b.toFields with id := s.id, status := s.status }) (fun _ => rfl) db.staff
      simp only at this ⊢
      rw [this]; exact h.staff
  | putStaffArchive k =>
    refine ⟨h.students, ?_, h.classes, h.sections, h.fee_structures, h.staff_roles⟩
    have := map_key_update (fun s : StaffRow => s.id) (fun s => s.id == k)
      (fun s => { s with status := "Left" }) (fun _ => rfl) db.staff
    simp only [handle, putStaffArchive, archiveStaff] at this ⊢
    rw [this]; exact h.staff

theorem Reachable.keysUnique {db : Store} (h : Reachable db) : db.KeysUnique := by
  induction h with
  | init => exact keysUnique_init
  | step r _ ih => exact keysUnique_handle ih r

/-! ## Status -/

theorem statusOk_init : Store.init.StatusOk := by
  have : ∀ (l : List String) (db : Store), db.students = [] ∧ db.staff = [] →
      (l.foldl insertOrIgnoreStaffRole db).students = [] ∧
      (l.foldl insertOrIgnoreStaffRole db).staff = [] := by
    intro l
    induction l with
    | nil => intro db h; exact h
    | cons a t ih =>
      intro db h
      apply ih
      unfold insertOrIgnoreStaffRole
      split <;> exact h
  have h := this roles Store.empty ⟨rfl, rfl⟩
  unfold Store.init Store.StatusOk
  rw [h.1, h.2]
  simp

theorem statusOk_handle {db : Store} (h : db.StatusOk) (r : Request) :
    (handle db r).1.StatusOk := by
  obtain ⟨h1, h2⟩ := h
  cases r with
  | postStaffRoles n =>
    simp only [handle, postStaffRoles, insertStaffRole]
    split <;> exact ⟨h1, h2⟩
  | deleteStaffRoles k => exact ⟨h1, h2⟩
  | postClasses n =>
    simp only [handle, postClasses, insertClass]
    split <;> exact ⟨h1, h2⟩
  | deleteClasses k => exact ⟨h1, h2⟩
  | postSections c n t =>
    simp only [handle, postSections, insertSection]
    split <;> exact ⟨h1, h2⟩
  | deleteSections k => exact ⟨h1, h2⟩
  | postFeeStructures c f a =>
    simp only [handle, postFeeStructures, insertFeeStructure]
    split <;> exact ⟨h1, h2⟩
  | deleteFeeStructures k => exact ⟨h1, h2⟩
  | postStudents b =>
    simp only [handle, postStudents, insertStudent]
    split
    · exact ⟨h1, h2⟩
    · refine ⟨?_, h2⟩
      intro s hs
      rcases List.mem_append.1 hs with hs | hs
      · exact h1 s hs
      · rw [List.mem_singleton] at hs
        subst hs
        exact Or.inl rfl
  | putStudents k b =>
    simp only [handle, putStudents, updateStudent]
    split
    · exact ⟨h1, h2⟩
    · refine ⟨?_, h2⟩
      intro s hs
      obtain ⟨s0, hs0, rfl⟩ := List.mem_map.1 hs
      split
      · exact h1 s0 hs0
      · exact h1 s0 hs0
  | putStudentsArchive k =>
    refine ⟨?_, h2⟩
    intro s hs
    obtain ⟨s0, hs0, rfl⟩ := List.mem_map.1 hs
    split
    · exact Or.inr rfl
    · exact h1 s0 hs0
  | postStaff b =>
    simp only [handle, postStaff, insertStaff]
    split
    · exact ⟨h1, h2⟩
    · refine ⟨h1, ?_⟩
      intro s hs
      rcases List.mem_append.1 hs with hs | hs
      · exact h2 s hs
      · rw [List.mem_singleton] at hs
        subst hs
        exact Or.inl rfl
  | putStaff k b =>
    simp only [handle, putStaff, updateStaff]
    split
    · exact ⟨h1, h2⟩
    · refine ⟨h1, ?_⟩
      intro s hs
      obtain ⟨s0, hs0, rfl⟩ := List.mem_map.1 hs
      split
      · exact h2 s0 hs0
      · exact h2 s0 hs0
  | putStaffArchive k =>
    refine ⟨h1, ?_⟩
    intro s hs
    obtain ⟨s0, hs0, rfl⟩ := List.mem_map.1 hs
    split
    · exact Or.inr rfl
    · exact h2 s0 hs0

theorem Reachable.statusOk {db : Store} (h : Reachable db) : db.StatusOk := by
  induction h with
  | init => exact statusOk_init
  | step r _ ih => exact statusOk_handle ih r

theorem reachable_run {db : Store} (h : Reachable db) (rs : List Request) :
    Reachable (run db rs) := by
  induction rs generalizing db with
  | nil => exact h
  | cons r t ih => exact ih (Reachable.step r h)

/-! ## Joins on a key -/

theorem sqlEq_iff {fk : SqlValue} {key : Nat} :
    sqlEq fk key = true ↔ fk = .integer key := by
  unfold sqlEq
  exact beq_iff_eq

theorem filter_sqlEq_length_le_one {α : Type} (key : α → Nat) {l : List α}
    (h : (l.map key).Nodup) (fk : SqlValue) :
    (l.filter fun a => sqlEq fk (key a)).length ≤ 1 := by
  by_cases hk : ∃ k : Nat, fk = .integer k
  · obtain ⟨k, rfl⟩ := hk
    have e : (fun a => sqlEq (.integer k) (key a)) = fun a => key a == k := by
      funext a
      rw [Bool.eq_iff_iff, sqlEq_iff, beq_iff_eq]
      constructor
      · intro h1
        exact (Int.ofNat.inj (SqlValue.integer.inj h1)).symm
      · intro h1
        rw [h1]
    rw [e]
    exact filter_key_length_le_one key h k
  · have e : (l.filter fun a => sqlEq fk (key a)) = [] := by
      rw [List.filter_eq_nil_iff]
      intro a _ h1
      exact hk ⟨key a, sqlEq_iff.1 h1⟩
    rw [e]
    exact Nat.zero_le _

theorem leftJoin_map_fst {α β : Type} (l : List α) (r : List β) (cond : α → β → Bool)
    (h : ∀ a ∈ l, (r.filter (cond a)).length ≤ 1) :
    (leftJoin l r cond).map Prod.fst = l := by
  induction l with
  | nil => rfl
  | cons a t ih =>
    have ht := ih fun x hx => h x (List.mem_cons_of_mem _ hx)
    have ha := h a (List.mem_cons_self _ _)
    unfold leftJoin at ht ⊢
    rw [List.flatMap_cons, List.map_append, ht]
    rcases hf : r.filter (cond a) with _ | ⟨b, _ | ⟨c, bs⟩⟩
    · rfl
    · rfl
    · rw [hf] at ha
      simp at ha

theorem selectStudents_rows {db : Store} (h : db.KeysUnique) (st : String) :
    (selectStudents db st).map (·.row) = db.students.filter fun s => s.status == st := by
  unfold selectStudents
  simp only [List.map_map]
  have e1 := leftJoin_map_fst db.students db.sections (fun s sec => sqlEq s.section_id sec.id)
    (fun a _ => filter_sqlEq_length_le_one (fun sec : SectionRow => sec.id) h.sections _)
  have e2 := leftJoin_map_fst
    (leftJoin db.students db.sections fun s sec => sqlEq s.section_id sec.id) db.classes
    (fun p c => sqlEq (columnOf p.2 (·.class_id)) c.id)
    (fun p _ => filter_sqlEq_length_le_one (fun c : ClassRow => c.id) h.classes _)
  conv_rhs => rw [← e1, ← e2, List.map_map, List.filter_map]
  rfl

theorem leftJoin_eq_map {α β : Type} (l : List α) (r : List β) (cond : α → β → Bool)
    (h : ∀ a ∈ l, (r.filter (cond a)).length ≤ 1) :
    leftJoin l r cond = l.map fun a => (a, (r.filter (cond a)).head?) := by
  induction l with
  | nil => rfl
  | cons a t ih =>
    have ht := ih fun x hx => h x (List.mem_cons_of_mem _ hx)
    have ha := h a (List.mem_cons_self _ _)
    unfold leftJoin at ht ⊢
    rw [List.flatMap_cons, ht, List.map_cons]
    rcases hf : r.filter (cond a) with _ | ⟨b, _ | ⟨c, bs⟩⟩
    · rfl
    · rfl
    · rw [hf] at ha
      simp at ha

theorem selectStudents_eq {db : Store} (h : db.KeysUnique) (st : String) :
    selectStudents db st =
      (db.students.filter fun s => s.status == st).map fun s =>
        ⟨s, classLabel db s.section_id⟩ := by
  unfold selectStudents
  have e1 := leftJoin_eq_map db.students db.sections (fun s sec => sqlEq s.section_id sec.id)
    (fun a _ => filter_sqlEq_length_le_one (fun sec : SectionRow => sec.id) h.sections _)
  have e2 := leftJoin_eq_map
    (leftJoin db.students db.sections fun s sec => sqlEq s.section_id sec.id) db.classes
    (fun p c => sqlEq (columnOf p.2 (·.class_id)) c.id)
    (fun p _ => filter_sqlEq_length_le_one (fun c : ClassRow => c.id) h.classes _)
  dsimp only
  rw [e2, e1, List.map_map, List.filter_map, List.map_map]
  rfl

theorem filter_status_left {l : List StudentRow}
    (h : ∀ s ∈ l, s.status = "Active" ∨ s.status = "Left") :
    (l.filter fun s => s.status == "Left") = l.filter fun s => !(s.status == "Active") := by
  apply List.filter_congr
  intro s hs
  rcases h s hs with e | e <;> rw [e] <;> decide

theorem studentIds_partition {db : Store} (hk : db.KeysUnique) (hs : db.StatusOk) :
    (studentIds (getStudents db) ++ studentIds (getStudentsArchived db)).Perm
      (db.students.map (·.id)) := by
  have e : ∀ st, studentIds (selectStudents db st) =
      (db.students.filter fun s => s.status == st).map (·.id) := by
    intro st
    rw [← selectStudents_rows hk st, List.map_map]
    rfl
  unfold getStudents getStudentsArchived
  rw [e, e, filter_status_left hs.1, ← List.map_append]
  exact (List.filter_append_perm _ _).map _

theorem selectStudents_filter_id {db : Store} (hk : db.KeysUnique) (st : String) (k : Nat) :
    (selectStudents db st).filter (fun v => v.row.id == k) =
      ((db.students.filter fun s => s.id == k).filter fun s => s.status == st).map fun s =>
        ⟨s, classLabel db s.section_id⟩ := by
  rw [selectStudents_eq hk, List.filter_map, List.filter_filter, List.filter_filter]
  congr 1
  apply List.filter_congr
  intro x _
  simp [Bool.and_comm]

theorem mem_selectStudents {db : Store} (hk : db.KeysUnique) (st : String) (v : StudentView) :
    v ∈ selectStudents db st ↔
      v.row ∈ db.students ∧ v.row.status = st ∧ v.class_name = classLabel db v.row.section_id := by
  rw [selectStudents_eq hk, List.mem_map]
  constructor
  · rintro ⟨s, hs, rfl⟩
    rw [List.mem_filter] at hs
    exact ⟨hs.1, beq_iff_eq.1 hs.2, rfl⟩
  · rintro ⟨h1, h2, h3⟩
    refine ⟨v.row, List.mem_filter.2 ⟨h1, beq_iff_eq.2 h2⟩, ?_⟩
    cases v
    simp only at h3 ⊢
    rw [h3]

theorem filter_ne_map_update {α : Type} (key : α → Nat) (k : Nat) (f : α → α)
    (hf : ∀ a, key (f a) = key a) (l : List α) :
    (l.map fun a => if key a == k then f a else a).filter (fun a => key a != k) =
      l.filter fun a => key a != k := by
  induction l with
  | nil => rfl
  | cons a t ih =>
    by_cases h : key a = k
    · simpa [List.filter_cons, h, hf] using ih
    · simpa [List.filter_cons, h] using ih

theorem map_archive_idem {α : Type} (key : α → Nat) (k : Nat) (f : α → α)
    (hf : ∀ a, key (f a) = key a) (hff : ∀ a, f (f a) = f a) (l : List α) :
    (l.map fun a => if key a == k then f a else a).map (fun a => if key a == k then f a else a) =
      l.map fun a => if key a == k then f a else a := by
  rw [List.map_map]
  apply List.map_congr_left
  intro a _
  by_cases h : key a = k
  · simp [h, hf, hff]
  · simp [h]

theorem archiveStudent_idem (db : Store) (id : Nat) :
    (archiveStudent (archiveStudent db id).1 id).1 = (archiveStudent db id).1 := by
  have := map_archive_idem (fun t : StudentRow => t.id) id (fun t => { t with status := "Left" })
    (fun _ => rfl) (fun _ => rfl) db.students
  simp only [archiveStudent]
  rw [this]

theorem archiveStaff_idem (db : Store) (id : Nat) :
    (archiveStaff (archiveStaff db id).1 id).1 = (archiveStaff db id).1 := by
  have := map_archive_idem (fun t : StaffRow => t.id) id (fun t => { t with status := "Left" })
    (fun _ => rfl) (fun _ => rfl) db.staff
  simp only [archiveStaff]
  rw [this]

/-- How one request may change a person table: not at all, by one new row
with the next key and status `Active`, or by rewriting rows in place, each
keeping its key and either keeping its status or taking `Left`. -/
theorem handle_students_cases (db : Store) (r : Request) :
    (handle db r).1.students = db.students ∨
    (∃ b : StudentFields, (handle db r).1.students = db.students ++
      [{ b with id := nextRowid (db.students.map (·.id)), status := "Active" }]) ∨
    (∃ f : StudentRow → StudentRow,
      (∀ t, (f t).id = t.id ∧ ((f t).status = t.status ∨ (f t).status = "Left")) ∧
      (handle db r).1.students = db.students.map f) := by
  cases r with
  | postStaffRoles n =>
    simp only [handle, postStaffRoles, insertStaffRole]
    split <;> exact Or.inl rfl
  | deleteStaffRoles k => exact Or.inl rfl
  | postClasses n =>
    simp only [handle, postClasses, insertClass]
    split <;> exact Or.inl rfl
  | deleteClasses k => exact Or.inl rfl
  | postSections c n t =>
    simp only [handle, postSections, insertSection]
    split <;> exact Or.inl rfl
  | deleteSections k => exact Or.inl rfl
  | postFeeStructures c f a =>
    simp only [handle, postFeeStructures, insertFeeStructure]
    split <;> exact Or.inl rfl
  | deleteFeeStructures k => exact Or.inl rfl
  | postStudents b =>
    simp only [handle, postStudents, insertStudent]
    split
    · exact Or.inl rfl
    · exact Or.inr (Or.inl ⟨b.toFields, rfl⟩)
  | putStudents k b =>
    simp only [handle, putStudents, updateStudent]
    split
    · exact Or.inl rfl
    · refine Or.inr (Or.inr ⟨fun s =>
        if s.id == k then { b.toFields with id := s.id, status := s.status } else s, ?_, rfl⟩)
      intro t
      dsimp only
      split <;> exact ⟨rfl, Or.inl rfl⟩
  | putStudentsArchive k =>
    refine Or.inr (Or.inr ⟨fun s => if s.id == k then { s with status := "Left" } else s, ?_, rfl⟩)
    intro t
    dsimp only
    split
    · exact ⟨rfl, Or.inr rfl⟩
    · exact ⟨rfl, Or.inl rfl⟩
  | postStaff b =>
    simp only [handle, postStaff, insertStaff]
    split <;> exact Or.inl rfl
  | putStaff k b =>
    simp only [handle, putStaff, updateStaff]
    split <;> exact Or.inl rfl
  | putStaffArchive k => exact Or.inl rfl

theorem handle_staff_cases (db : Store) (r : Request) :
    (handle db r).1.staff = db.staff ∨
    (∃ b : StaffFields, (handle db r).1.staff = db.staff ++
      [{ b with id := nextRowid (db.staff.map (·.id)), status := "Active" }]) ∨
    (∃ f : StaffRow → StaffRow,
      (∀ t, (f t).id = t.id ∧ ((f t).status = t.status ∨ (f t).status = "Left")) ∧
      (handle db r).1.staff = db.staff.map f) := by
  cases r with
  | postStaffRoles n =>
    simp only [handle, postStaffRoles, insertStaffRole]
    split <;> exact Or.inl rfl
  | deleteStaffRoles k => exact Or.inl rfl
  | postClasses n =>
    simp only [handle, postClasses, insertClass]
    split <;> exact Or.inl rfl
  | deleteClasses k => exact Or.inl rfl
  | postSections c n t =>
    simp only [handle, postSections, insertSection]
    split <;> exact Or.inl rfl
  | deleteSections k => exact Or.inl rfl
  | postFeeStructures c f a =>
    simp only [handle, postFeeStructures, insertFeeStructure]
    split <;> exact Or.inl rfl
  | deleteFeeStructures k => exact Or.inl rfl
  | postStudents b =>
    simp only [handle, postStudents, insertStudent]
    split <;> exact Or.inl rfl
  | putStudents k b =>
    simp only [handle, putStudents, updateStudent]
    split <;> exact Or.inl rfl
  | putStudentsArchive k => exact Or.inl rfl
  | postStaff b =>
    simp only [handle, postStaff, insertStaff]
    split
    · exact Or.inl rfl
    · exact Or.inr (Or.inl ⟨b.toFields, rfl⟩)
  | putStaff k b =>
    simp only [handle, putStaff, updateStaff]
    split
    · exact Or.inl rfl
    · refine Or.inr (Or.inr ⟨fun s =>
        if s.id == k then { b.toFields with id := s.id, status := s.status } else s, ?_, rfl⟩)
      intro t
      dsimp only
      split <;> exact ⟨rfl, Or.inl rfl⟩
  | putStaffArchive k =>
    refine Or.inr (Or.inr ⟨fun s => if s.id == k then { s with status := "Left" } else s, ?_, rfl⟩)
    intro t
    dsimp only
    split
    · exact ⟨rfl, Or.inr rfl⟩
    · exact ⟨rfl, Or.inl rfl⟩

/-- Consequences of the three ways a table of rows with a key and a status
may change, for a table with unique keys. -/
theorem status_step {α : Type} (key : α → Nat) (status : α → String) {l l' : List α}
    (hn : (l.map key).Nodup)
    (h : l' = l ∨
      (∃ n : α, (key n = nextRowid (l.map key) ∧ status n = "Active") ∧ l' = l ++ [n]) ∨
      ∃ f : α → α, (∀ t, key (f t) = key t ∧ (status (f t) = status t ∨ status (f t) = "Left")) ∧
        l' = l.map f) :
    (∀ s ∈ l', key s ∉ l.map key → status s = "Active") ∧
    (∀ s ∈ l, status s = "Left" → ∀ t ∈ l', key t = key s → status t = "Left") ∧
    (∀ s ∈ l, ∃ t ∈ l', key t = key s) := by
  rcases h with rfl | ⟨n, hmk, rfl⟩ | ⟨f, hf, rfl⟩
  · refine ⟨fun s hs hk => absurd (List.mem_map_of_mem _ hs) hk, ?_, fun s hs => ⟨s, hs, rfl⟩⟩
    intro s hs hl t ht e
    rw [List.inj_on_of_nodup_map hn ht hs e]; exact hl
  · refine ⟨?_, ?_, fun s hs => ⟨s, List.mem_append_left _ hs, rfl⟩⟩
    · intro s hs hk
      rcases List.mem_append.1 hs with hs | hs
      · exact absurd (List.mem_map_of_mem _ hs) hk
      · rw [List.mem_singleton.1 hs]; exact hmk.2
    · intro s hs hl t ht e
      rcases List.mem_append.1 ht with ht | ht
      · rw [List.inj_on_of_nodup_map hn ht hs e]; exact hl
      · rw [List.mem_singleton.1 ht, hmk.1] at e
        exact absurd (e ▸ List.mem_map_of_mem key hs) (nextRowid_not_mem _)
  · refine ⟨?_, ?_, fun s hs => ⟨f s, List.mem_map_of_mem _ hs, (hf s).1⟩⟩
    · intro s hs hk
      obtain ⟨t, ht, rfl⟩ := List.mem_map.1 hs
      rw [(hf t).1] at hk
      exact absurd (List.mem_map_of_mem _ ht) hk
    · intro s hs hl t ht e
      obtain ⟨t0, ht0, rfl⟩ := List.mem_map.1 ht
      rw [(hf t0).1] at e
      have := List.inj_on_of_nodup_map hn ht0 hs e
      subst this
      rcases (hf t0).2 with h | h
      · rw [h]; exact hl
      · exact h

/-! ## Labels, creations, deletes and updates -/

theorem postStudents_created {db : Store} {b : StudentBody} {k : Nat}
    (h : (postStudents db b).2 = .id (some k)) :
    k ∉ db.students.map (·.id) ∧
    ({ b.toFields with id := k, status := "Active" } : StudentRow) ∈
      (postStudents db b).1.students := by
  unfold postStudents insertStudent at h ⊢
  cases hb : b.toFields.name.isNone with
  | true =>
    rw [hb] at h
    simp [answerIdChecked, RunResult.failed] at h
  | false =>
    rw [hb] at h
    simp only [Bool.false_eq_true, ↓reduceIte, answerIdChecked, RunResult.inserted,
      Response.id.injEq, Option.some.injEq] at h ⊢
    subst h
    exact ⟨nextRowid_not_mem _, List.mem_append_right _ (List.mem_singleton_self _)⟩

theorem postStaff_created {db : Store} {b : StaffBody} {k : Nat}
    (h : (postStaff db b).2 = .id (some k)) :
    k ∉ db.staff.map (·.id) ∧
    ({ b.toFields with id := k, status := "Active" } : StaffRow) ∈
      (postStaff db b).1.staff := by
  unfold postStaff insertStaff at h ⊢
  cases hb : b.toFields.name.isNone with
  | true =>
    rw [hb] at h
    simp [answerIdChecked, RunResult.failed] at h
  | false =>
    rw [hb] at h
    simp only [Bool.false_eq_true, ↓reduceIte, answerIdChecked, RunResult.inserted,
      Response.id.injEq, Option.some.injEq] at h ⊢
    subst h
    exact ⟨nextRowid_not_mem _, List.mem_append_right _ (List.mem_singleton_self _)⟩

theorem filter_sqlEq_eq_singleton {α : Type} (key : α → Nat) {l : List α}
    (h : (l.map key).Nodup) {b : α} (hb : b ∈ l) {fk : SqlValue}
    (hfk : fk = .integer (key b)) :
    (l.filter fun a => sqlEq fk (key a)) = [b] := by
  have e : (fun a => sqlEq fk (key a)) = fun a => key a == key b := by
    funext a
    rw [Bool.eq_iff_iff, sqlEq_iff, beq_iff_eq, hfk]
    constructor
    · intro h1
      exact (Int.ofNat.inj (SqlValue.integer.inj h1)).symm
    · intro h1
      rw [h1]
  rw [e]
  exact filter_key_eq_singleton key h hb

theorem classLabel_eq {db : Store} (hk : db.KeysUnique) {sid : SqlValue}
    {sec : SectionRow} (hsec : sec ∈ db.sections) (hsid : sid = .integer sec.id)
    {c : ClassRow} (hc : c ∈ db.classes) (hcid : sec.class_id = .integer c.id) :
    classLabel db sid = sqlConcat (sqlConcat c.name (some " ")) sec.section_name := by
  unfold classLabel
  rw [filter_sqlEq_eq_singleton (fun s : SectionRow => s.id) hk.sections hsec hsid]
  dsimp only [List.head?, columnOf]
  rw [filter_sqlEq_eq_singleton (fun c : ClassRow => c.id) hk.classes hc hcid]
  rfl

/-! ## Values that a column keeps as they are -/

theorem ulpShift_of_lt {a : Nat} (h : a < 2 ^ 53) (fuel : Nat) : ulpShift fuel a = 0 := by
  cases fuel with
  | zero => rfl
  | succ f => simp only [ulpShift, h, ↓reduceIte]

theorem roundNat_of_lt {a : Nat} (h : a < 2 ^ 53) : roundNat a = a := by
  unfold roundNat
  rw [ulpShift_of_lt h]
  simp [Nat.mod_one]

theorem toDouble_of_lt {n : Int} (h : n.natAbs < 2 ^ 53) : toDouble n = n := by
  unfold toDouble
  rw [roundNat_of_lt h]
  split <;> omega

theorem integerAffinity_number {n : Int} (h : n.natAbs < 2 ^ 53) :
    integerAffinity (.number n) = .integer n := by
  have h1 : -(2 ^ 63 : Int) < n ∧ n < 2 ^ 63 := by omega
  simp only [integerAffinity, wholeReal, toDouble_of_lt h, h1, and_self, ↓reduceIte]

theorem textAffinity_eq_none {x : Json} : textAffinity x = none ↔ x = .null := by
  cases x <;> simp [textAffinity]
  split <;> simp

theorem textToJson_textAffinity {x : Json} (h : x.isText = true) :
    textToJson (textAffinity x) = x := by
  cases x <;> simp_all [Json.isText, textAffinity, textToJson]

theorem toJson_integerAffinity {x : Json} (h : x.isSafeInteger = true) :
    (integerAffinity x).toJson? = some x := by
  cases x with
  | null => rfl
  | number n =>
    have hn : n.natAbs < 2 ^ 53 := by simpa [Json.isSafeInteger] using h
    rw [integerAffinity_number hn]
    simp only [SqlValue.toJson?, toDouble_of_lt hn]
  | bool b => simp [Json.isSafeInteger] at h
  | string s => simp [Json.isSafeInteger] at h
  | object => simp [Json.isSafeInteger] at h

theorem studentBody_sent_back {b : StudentBody} (h : b.typed = true) :
    b.toFields.toBody? = some b := by
  simp only [StudentBody.typed, Bool.and_eq_true] at h
  obtain ⟨⟨⟨⟨⟨⟨⟨⟨h1, h2⟩, h3⟩, h4⟩, h5⟩, h6⟩, h7⟩, h8⟩, h9⟩ := h
  simp only [StudentFields.toBody?, StudentBody.toFields, toJson_integerAffinity h2,
    toJson_integerAffinity h9, textToJson_textAffinity h1, textToJson_textAffinity h3,
    textToJson_textAffinity h4, textToJson_textAffinity h5, textToJson_textAffinity h6,
    textToJson_textAffinity h7, textToJson_textAffinity h8]

theorem staffBody_sent_back {b : StaffBody} (h : b.typed = true) :
    b.toFields.toBody? = some b := by
  simp only [StaffBody.typed, Bool.and_eq_true] at h
  obtain ⟨⟨⟨⟨⟨⟨⟨h1, h2⟩, h3⟩, h4⟩, h5⟩, h6⟩, h7⟩, h8⟩ := h
  simp only [StaffFields.toBody?, StaffBody.toFields, toJson_integerAffinity h2,
    textToJson_textAffinity h1, textToJson_textAffinity h3,
    textToJson_textAffinity h4, textToJson_textAffinity h5, textToJson_textAffinity h6,
    textToJson_textAffinity h7, textToJson_textAffinity h8]

theorem filter_key_ne_eq_erase {α : Type} [DecidableEq α] (key : α → Nat) {l : List α}
    (h : (l.map key).Nodup) {r : α} (hr : r ∈ l) :
    (l.filter fun a => key a != key r) = l.erase r := by
  induction l with
  | nil => cases hr
  | cons a t ih =>
    rw [List.map_cons, List.nodup_cons] at h
    by_cases e : a = r
    · subst e
      rw [List.erase_cons_head, List.filter_cons]
      simp only [bne_self_eq_false, Bool.false_eq_true, ↓reduceIte]
      exact filter_key_ne_eq_self key h.1
    · have hr' : r ∈ t := (List.mem_cons.1 hr).resolve_left (Ne.symm e)
      have hne : key a ≠ key r := fun e' => h.1 (e' ▸ List.mem_map_of_mem key hr')
      rw [List.erase_cons_tail (by simpa using e), List.filter_cons, ih h.2 hr']
      simp [hne]

theorem map_update_of_not_mem {α : Type} (key : α → Nat) (f : α → α) {l : List α} {k : Nat}
    (hk : k ∉ l.map key) : (l.map fun a => if key a == k then f a else a) = l := by
  conv_rhs => rw [← List.map_id l]
  apply List.map_congr_left
  intro a ha
  have : key a ≠ k := fun e => hk (e ▸ List.mem_map_of_mem key ha)
  simp [this]

theorem any_key_eq_false {α : Type} (key : α → Nat) {l : List α} {k : Nat}
    (hk : k ∉ l.map key) : l.any (fun a => key a == k) = false := by
  rw [List.any_eq_false]
  intro a ha e
  exact hk (beq_iff_eq.1 e ▸ List.mem_map_of_mem key ha)

theorem any_key_eq_true {α : Type} (key : α → Nat) {l : List α} {a : α}
    (ha : a ∈ l) : l.any (fun x => key x == key a) = true :=
  List.any_eq_true.2 ⟨a, ha, beq_self_eq_true _⟩

/-- Rows with key `k` after an in-place rewrite of the row with key `k`. -/
theorem eq_of_mem_map_update {α : Type} (key : α → Nat) (f : α → α)
    {l : List α} (h : (l.map key).Nodup) {s : α} (hs : s ∈ l)
    {t : α} (ht : t ∈ l.map fun a => if key a == key s then f a else a)
    (e : key t = key s) : t = f s := by
  obtain ⟨t0, ht0, rfl⟩ := List.mem_map.1 ht
  by_cases h0 : key t0 = key s
  · have := List.inj_on_of_nodup_map h ht0 hs h0
    subst this
    simp
  · simp only [beq_iff_eq, h0, ↓reduceIte] at e

/-! # Claims -/

/-- Claim C1.  In every store reachable from initialization through the
handlers, the ids of `GET /api/students` and of `GET /api/students/archived`
are disjoint, together they are exactly the ids of the `students` table (each
once), every row of the table has its id in exactly one of the two listings,
and no listed id is missing from the table. -/
theorem students_listings_partition (db : Store) (h : Reachable db) :
    List.Disjoint (studentIds (getStudents db)) (studentIds (getStudentsArchived db)) ∧
    (studentIds (getStudents db) ++ studentIds (getStudentsArchived db)).Perm
      (db.students.map (·.id)) ∧
    (∀ s ∈ db.students,
      (s.id ∈ studentIds (getStudents db) ∧ s.id ∉ studentIds (getStudentsArchived db)) ∨
      (s.id ∉ studentIds (getStudents db) ∧ s.id ∈ studentIds (getStudentsArchived db))) ∧
    (∀ i, i ∈ studentIds (getStudents db) ∨ i ∈ studentIds (getStudentsArchived db) →
      i ∈ db.students.map (·.id)) := by
  have hp := studentIds_partition h.keysUnique h.statusOk
  have hn : (studentIds (getStudents db) ++ studentIds (getStudentsArchived db)).Nodup :=
    hp.nodup_iff.2 h.keysUnique.students
  have hd : List.Disjoint (studentIds (getStudents db)) (studentIds (getStudentsArchived db)) :=
    (List.nodup_append.1 hn).2.2
  refine ⟨hd, hp, ?_, ?_⟩
  · intro s hs
    have hm : s.id ∈ studentIds (getStudents db) ++ studentIds (getStudentsArchived db) :=
      hp.mem_iff.2 (List.mem_map_of_mem _ hs)
    rcases List.mem_append.1 hm with ha | ha
    · exact Or.inl ⟨ha, fun hb => hd ha hb⟩
    · exact Or.inr ⟨fun hb => hd hb ha, ha⟩
  · intro i hi
    exact hp.mem_iff.1 (List.mem_append.2 hi)

theorem students_listings_partition_witness :
    Reachable schoolStore ∧
    List.Disjoint (studentIds (getStudents schoolStore))
      (studentIds (getStudentsArchived schoolStore)) ∧
    (studentIds (getStudents schoolStore) ++ studentIds (getStudentsArchived schoolStore)).Perm
      (schoolStore.students.map (·.id)) ∧
    studentIds (getStudents schoolStore) = [2] ∧
    studentIds (getStudentsArchived schoolStore) = [1] :=
  ⟨reachable_run (reachable_run Reachable.init _) _,
   (students_listings_partition schoolStore
      (reachable_run (reachable_run Reachable.init _) _)).1,
   (students_listings_partition schoolStore
      (reachable_run (reachable_run Reachable.init _) _)).2.1,
   by decide, by decide⟩

/-- Claim C2, on the code.  Bob, hired without `role_id`, is a row of `staff`
and is in neither `GET /api/staff` nor `GET /api/staff/archived`; so is Alice
once her role has been deleted through `DELETE /api/staff-roles/1`, although
she was listed with role Teacher before.  Both stores are reachable. -/
theorem staff_without_role_unlisted :
    Reachable bobStore ∧
    bobStore.staff = [{ bobBody.toFields with id := 1, status := "Active" }] ∧
    getStaff bobStore = [] ∧ getStaffArchived bobStore = [] ∧
    Reachable roleDeletedStore ∧
    roleDeletedStore.staff = [{ aliceBody.toFields with id := 1, status := "Active" }] ∧
    getStaff roleDeletedStore = [] ∧ getStaffArchived roleDeletedStore = [] ∧
    getStaff (run Store.init [.postStaff aliceBody]) =
      [⟨{ aliceBody.toFields with id := 1, status := "Active" }, some "Teacher"⟩] :=
  ⟨reachable_run Reachable.init _, by decide, by decide, by decide,
   reachable_run Reachable.init _, by decide, by decide, by decide, by decide⟩

/-- Claim C3.  For a store with unique keys and an existing student `s` with
status `Active`, `PUT /api/students/:id/archive` answers `changes = 1`; after
it the only row with that id is `s` with status `Left`, no row of the active
listing has that id, the archived listing holds exactly one row with that id,
which is `s` with status `Left` under the same `class_name` that the active
listing showed before, every other row of `students` is as before, and no
other table changed. -/
theorem archive_student_postcondition (db : Store) (hk : db.KeysUnique) (s : StudentRow)
    (hs : s ∈ db.students) (ha : s.status = "Active") :
    (putStudentsArchive db s.id).2 = .changes (some 1) ∧
    { s with status := "Left" } ∈ (putStudentsArchive db s.id).1.students ∧
    (∀ t ∈ (putStudentsArchive db s.id).1.students, t.id = s.id → t = { s with status := "Left" }) ∧
    (∀ v ∈ getStudents (putStudentsArchive db s.id).1, v.row.id ≠ s.id) ∧
    (∃ cn, (getStudents db).filter (fun v => v.row.id == s.id) = [⟨s, cn⟩] ∧
      (getStudentsArchived (putStudentsArchive db s.id).1).filter (fun v => v.row.id == s.id) =
        [⟨{ s with status := "Left" }, cn⟩]) ∧
    (putStudentsArchive db s.id).1.students.filter (fun t => t.id != s.id) =
      db.students.filter (fun t => t.id != s.id) ∧
    (putStudentsArchive db s.id).1.students.length = db.students.length ∧
    (putStudentsArchive db s.id).1 =
      { db with students := (putStudentsArchive db s.id).1.students } := by
  have hk' : (putStudentsArchive db s.id).1.KeysUnique :=
    keysUnique_handle hk (.putStudentsArchive s.id)
  have hmem : ({ s with status := "Left" } : StudentRow) ∈ (putStudentsArchive db s.id).1.students := by
    refine List.mem_map.2 ⟨s, hs, ?_⟩
    simp
  have hone : ((putStudentsArchive db s.id).1.students.filter fun t => t.id == s.id) =
      [{ s with status := "Left" }] :=
    filter_key_eq_singleton (fun t : StudentRow => t.id) hk'.students hmem
  refine ⟨?_, hmem, ?_, ?_, ⟨classLabel db s.section_id, ?_, ?_⟩, ?_, ?_, rfl⟩
  · show Response.changes (some _) = _
    rw [filter_key_length_eq_one (fun t : StudentRow => t.id) hk.students
      (List.mem_map_of_mem _ hs)]
  · intro t ht hid
    have : t ∈ (putStudentsArchive db s.id).1.students.filter fun t => t.id == s.id :=
      List.mem_filter.2 ⟨ht, beq_iff_eq.2 hid⟩
    rw [hone] at this
    exact List.mem_singleton.1 this
  · intro v hv hid
    obtain ⟨h1, h2, -⟩ := (mem_selectStudents hk' "Active" v).1 hv
    have : v.row ∈ (putStudentsArchive db s.id).1.students.filter fun t => t.id == s.id :=
      List.mem_filter.2 ⟨h1, beq_iff_eq.2 hid⟩
    rw [hone] at this
    rw [List.mem_singleton.1 this] at h2
    exact absurd h2 (show ("Left" : String) ≠ "Active" by decide)
  · unfold getStudents
    rw [selectStudents_filter_id hk, filter_key_eq_singleton (fun t : StudentRow => t.id)
      hk.students hs]
    simp [List.filter_cons, ha]
  · unfold getStudentsArchived
    rw [selectStudents_filter_id hk', hone]
    rfl
  · exact filter_ne_map_update (fun t : StudentRow => t.id) s.id
      (fun t => { t with status := "Left" }) (fun _ => rfl) db.students
  · exact List.length_map _ _

theorem archive_student_postcondition_witness :
    janeStore.KeysUnique ∧
    ({ janeBody.toFields with id := 1, status := "Active" } : StudentRow) ∈ janeStore.students ∧
    (putStudentsArchive janeStore 1).2 = .changes (some 1) ∧
    ({ janeBody.toFields with id := 1, status := "Left" } : StudentRow) ∈
      (putStudentsArchive janeStore 1).1.students ∧
    getStudents (putStudentsArchive janeStore 1).1 = [] ∧
    getStudentsArchived (putStudentsArchive janeStore 1).1 =
      [⟨{ janeBody.toFields with id := 1, status := "Left" }, some "Grade 5 A"⟩] :=
  ⟨(reachable_run Reachable.init janeRequests).keysUnique, by decide,
   (archive_student_postcondition janeStore (reachable_run Reachable.init janeRequests).keysUnique
      { janeBody.toFields with id := 1, status := "Active" } (by decide) rfl).1,
   (archive_student_postcondition janeStore (reachable_run Reachable.init janeRequests).keysUnique
      { janeBody.toFields with id := 1, status := "Active" } (by decide) rfl).2.1,
   by decide, by decide⟩

/-- Claim C4.  For students and for staff, archiving twice leaves the same
store as archiving once, for every store and id.  When the store has unique
keys and a row with that id exists, the first and the second call both answer
`changes = 1`, the row is still there, and its status is `Left`. -/
theorem archive_idempotent (db : Store) (id : Nat) :
    (putStudentsArchive (putStudentsArchive db id).1 id).1 = (putStudentsArchive db id).1 ∧
    (putStaffArchive (putStaffArchive db id).1 id).1 = (putStaffArchive db id).1 ∧
    (db.KeysUnique → id ∈ db.students.map (·.id) →
      (putStudentsArchive db id).2 = .changes (some 1) ∧
      (putStudentsArchive (putStudentsArchive db id).1 id).2 = .changes (some 1) ∧
      (∃ s ∈ (putStudentsArchive (putStudentsArchive db id).1 id).1.students, s.id = id) ∧
      ∀ s ∈ (putStudentsArchive (putStudentsArchive db id).1 id).1.students,
        s.id = id → s.status = "Left") ∧
    (db.KeysUnique → id ∈ db.staff.map (·.id) →
      (putStaffArchive db id).2 = .changes (some 1) ∧
      (putStaffArchive (putStaffArchive db id).1 id).2 = .changes (some 1) ∧
      (∃ s ∈ (putStaffArchive (putStaffArchive db id).1 id).1.staff, s.id = id) ∧
      ∀ s ∈ (putStaffArchive (putStaffArchive db id).1 id).1.staff,
        s.id = id → s.status = "Left") := by
  refine ⟨archiveStudent_idem db id, archiveStaff_idem db id, ?_, ?_⟩
  · intro hk hid
    have hk' : (putStudentsArchive db id).1.KeysUnique :=
      keysUnique_handle hk (.putStudentsArchive id)
    have hid' : id ∈ (putStudentsArchive db id).1.students.map (·.id) := by
      have := map_key_update (fun t : StudentRow => t.id) (fun t => t.id == id)
        (fun t => { t with status := "Left" }) (fun _ => rfl) db.students
      simp only [putStudentsArchive, archiveStudent]
      rw [this]; exact hid
    refine ⟨?_, ?_, ?_, ?_⟩
    · show Response.changes (some _) = _
      rw [filter_key_length_eq_one (fun t : StudentRow => t.id) hk.students hid]
    · show Response.changes (some _) = _
      rw [filter_key_length_eq_one (fun t : StudentRow => t.id) hk'.students hid']
    · show ∃ s ∈ (archiveStudent (archiveStudent db id).1 id).1.students, s.id = id
      rw [archiveStudent_idem]
      obtain ⟨s, hs, e⟩ := List.mem_map.1 hid'
      exact ⟨s, hs, e⟩
    · show ∀ s ∈ (archiveStudent (archiveStudent db id).1 id).1.students, _
      rw [archiveStudent_idem]
      intro s hs e
      obtain ⟨t, _, rfl⟩ := List.mem_map.1 hs
      by_cases h : t.id = id
      · simp [h]
      · simp [h] at e
  · intro hk hid
    have hk' : (putStaffArchive db id).1.KeysUnique :=
      keysUnique_handle hk (.putStaffArchive id)
    have hid' : id ∈ (putStaffArchive db id).1.staff.map (·.id) := by
      have := map_key_update (fun t : StaffRow => t.id) (fun t => t.id == id)
        (fun t => { t with status := "Left" }) (fun _ => rfl) db.staff
      simp only [putStaffArchive, archiveStaff]
      rw [this]; exact hid
    refine ⟨?_, ?_, ?_, ?_⟩
    · show Response.changes (some _) = _
      rw [filter_key_length_eq_one (fun t : StaffRow => t.id) hk.staff hid]
    · show Response.changes (some _) = _
      rw [filter_key_length_eq_one (fun t : StaffRow => t.id) hk'.staff hid']
    · show ∃ s ∈ (archiveStaff (archiveStaff db id).1 id).1.staff, s.id = id
      rw [archiveStaff_idem]
      obtain ⟨s, hs, e⟩ := List.mem_map.1 hid'
      exact ⟨s, hs, e⟩
    · show ∀ s ∈ (archiveStaff (archiveStaff db id).1 id).1.staff, _
      rw [archiveStaff_idem]
      intro s hs e
      obtain ⟨t, _, rfl⟩ := List.mem_map.1 hs
      by_cases h : t.id = id
      · simp [h]
      · simp [h] at e

theorem archive_idempotent_witness :
    schoolStore.KeysUnique ∧ 2 ∈ schoolStore.students.map (·.id) ∧
    1 ∈ schoolStore.staff.map (·.id) ∧
    (putStudentsArchive (putStudentsArchive schoolStore 2).1 2).2 = .changes (some 1) ∧
    (putStaffArchive (putStaffArchive schoolStore 1).1 1).2 = .changes (some 1) :=
  ⟨(reachable_run (reachable_run Reachable.init _) _).keysUnique, by decide, by decide,
   ((archive_idempotent schoolStore 2).2.2.1
      (reachable_run (reachable_run Reachable.init _) _).keysUnique (by decide)).2.1,
   ((archive_idempotent schoolStore 1).2.2.2
      (reachable_run (reachable_run Reachable.init _) _).keysUnique (by decide)).2.1⟩

/-- Claim C5.  In every reachable store each student and each staff row has
status `Active` or `Left`, and so it is after any further request.  A row
whose id is new after the request has status `Active`, and a create that
answers a key has stored the submitted fields, as their columns keep them,
under that new key with status `Active`.  A row with status `Left` before the request has status `Left`
after it, and no request removes a student or staff row. -/
theorem status_invariant (db : Store) (h : Reachable db) (r : Request) :
    db.StatusOk ∧ (handle db r).1.StatusOk ∧
    (∀ s ∈ (handle db r).1.students, s.id ∉ db.students.map (·.id) → s.status = "Active") ∧
    (∀ s ∈ (handle db r).1.staff, s.id ∉ db.staff.map (·.id) → s.status = "Active") ∧
    (∀ s ∈ db.students, s.status = "Left" →
      ∀ t ∈ (handle db r).1.students, t.id = s.id → t.status = "Left") ∧
    (∀ s ∈ db.staff, s.status = "Left" →
      ∀ t ∈ (handle db r).1.staff, t.id = s.id → t.status = "Left") ∧
    (∀ s ∈ db.students, ∃ t ∈ (handle db r).1.students, t.id = s.id) ∧
    (∀ s ∈ db.staff, ∃ t ∈ (handle db r).1.staff, t.id = s.id) ∧
    (∀ (b : StudentBody) (k : Nat), (postStudents db b).2 = .id (some k) →
      k ∉ db.students.map (·.id) ∧
      ({ b.toFields with id := k, status := "Active" } : StudentRow) ∈ (postStudents db b).1.students) ∧
    (∀ (b : StaffBody) (k : Nat), (postStaff db b).2 = .id (some k) →
      k ∉ db.staff.map (·.id) ∧
      ({ b.toFields with id := k, status := "Active" } : StaffRow) ∈ (postStaff db b).1.staff) := by
  have hst := handle_students_cases db r
  have hsf := handle_staff_cases db r
  have h1 := status_step (fun t : StudentRow => t.id) (fun t => t.status)
    h.keysUnique.students
    (by
      rcases hst with e | ⟨b, e⟩ | e
      · exact Or.inl e
      · exact Or.inr (Or.inl ⟨_, ⟨rfl, rfl⟩, e⟩)
      · exact Or.inr (Or.inr e))
  have h2 := status_step (fun t : StaffRow => t.id) (fun t => t.status)
    h.keysUnique.staff
    (by
      rcases hsf with e | ⟨b, e⟩ | e
      · exact Or.inl e
      · exact Or.inr (Or.inl ⟨_, ⟨rfl, rfl⟩, e⟩)
      · exact Or.inr (Or.inr e))
  exact ⟨h.statusOk, (Reachable.step r h).statusOk, h1.1, h2.1, h1.2.1, h2.2.1, h1.2.2, h2.2.2,
    fun _ _ hb => postStudents_created hb, fun _ _ hb => postStaff_created hb⟩

theorem status_invariant_witness :
    Reachable schoolStore ∧ schoolStore.StatusOk ∧
    (handle schoolStore (.putStudents 1 tomBody)).1.StatusOk ∧
    ∀ t ∈ (handle schoolStore (.putStudents 1 tomBody)).1.students, t.id = 1 → t.status = "Left" :=
  ⟨reachable_run (reachable_run Reachable.init _) _,
   (status_invariant schoolStore (reachable_run (reachable_run Reachable.init _) _)
      (.putStudents 1 tomBody)).1,
   (status_invariant schoolStore (reachable_run (reachable_run Reachable.init _) _)
      (.putStudents 1 tomBody)).2.1,
   (status_invariant schoolStore (reachable_run (reachable_run Reachable.init _) _)
      (.putStudents 1 tomBody)).2.2.2.2.1 { janeBody.toFields with id := 1, status := "Left" }
      (by decide) rfl⟩

/-- Claim C6, amended.  For a store with unique keys and a field set whose
text fields are strings (or null), whose `section_id` and `bus_stop_id` are
whole numbers below `2 ^ 53` in magnitude (or null), with a name, whose
`section_id` names an existing section with section name `sn`, whose
`class_id` names an existing class with name `cn`: `POST /api/students`
answers a new key `k`, and the active listing then holds exactly one row with
id `k`, which sends back every submitted field unchanged, with status
`Active` and `class_name` equal to `cn`, one space, `sn`. -/
theorem student_create_list_roundtrip (db : Store) (hk : db.KeysUnique) (b : StudentBody)
    (ht : b.typed = true) (n : String) (hn : b.name = .string n)
    (sec : SectionRow) (hsec : sec ∈ db.sections) (hsid : b.section_id = .number sec.id)
    (c : ClassRow) (hc : c ∈ db.classes) (hcid : sec.class_id = .integer c.id)
    (cn sn : String) (hcn : c.name = some cn) (hsn : sec.section_name = some sn) :
    ∃ k, (postStudents db b).2 = .id (some k) ∧ k ∉ db.students.map (·.id) ∧
      (getStudents (postStudents db b).1).filter (fun v => v.row.id == k) =
        [⟨{ b.toFields with id := k, status := "Active" }, some (cn ++ " " ++ sn)⟩] ∧
      ({ b.toFields with id := k, status := "Active" } : StudentRow).toBody? = some b := by
  have hk' : (postStudents db b).1.KeysUnique := keysUnique_handle hk (.postStudents b)
  have hname : b.toFields.name.isNone = false := by
    simp [StudentBody.toFields, hn, textAffinity]
  have hpost : postStudents db b =
      ({ db with students := db.students ++
          [{ b.toFields with id := nextRowid (db.students.map (·.id)), status := "Active" }] },
       .id (some (nextRowid (db.students.map (·.id))))) := by
    simp [postStudents, insertStudent, hname, answerIdChecked, RunResult.inserted]
  have hsafe : (sec.id : Int).natAbs < 2 ^ 53 := by
    simp only [StudentBody.typed, Bool.and_eq_true] at ht
    have h2 := ht.1.1.1.1.1.1.1.2
    rw [hsid] at h2
    simpa [Json.isSafeInteger] using h2
  have hfk : b.toFields.section_id = .integer sec.id := by
    simp only [StudentBody.toFields, hsid, integerAffinity_number hsafe]
  refine ⟨nextRowid (db.students.map (·.id)), ?_, nextRowid_not_mem _, ?_,
    studentBody_sent_back ht⟩
  · rw [hpost]
  · unfold getStudents
    rw [selectStudents_filter_id hk']
    have hmem : (⟨b.toFields, nextRowid (db.students.map (·.id)), "Active"⟩ : StudentRow) ∈
        (postStudents db b).1.students := by
      rw [hpost]; exact List.mem_append_right _ (List.mem_singleton_self _)
    rw [filter_key_eq_singleton (fun t : StudentRow => t.id) hk'.students hmem]
    have hl : classLabel (postStudents db b).1 b.toFields.section_id =
        some (cn ++ " " ++ sn) := by
      have : classLabel (postStudents db b).1 b.toFields.section_id =
          classLabel db b.toFields.section_id := by
        rw [hpost]; rfl
      rw [this, classLabel_eq hk hsec hfk hc hcid, hcn, hsn]
      rfl
    simp [List.filter_cons, hl]

theorem student_create_list_roundtrip_witness :
    gradeStore.KeysUnique ∧ janeBody.typed = true ∧
    ∃ k, (postStudents gradeStore janeBody).2 = .id (some k) ∧
      k ∉ gradeStore.students.map (·.id) ∧
      (getStudents (postStudents gradeStore janeBody).1).filter (fun v => v.row.id == k) =
        [⟨{ janeBody.toFields with id := k, status := "Active" }, some "Grade 5 A"⟩] ∧
      ({ janeBody.toFields with id := k, status := "Active" } : StudentRow).toBody? =
        some janeBody :=
  ⟨(reachable_run Reachable.init _).keysUnique, by decide,
   student_create_list_roundtrip gradeStore (reachable_run Reachable.init _).keysUnique
     janeBody (by decide) "Jane" rfl ⟨1, .integer 1, some "A", .null⟩ (by decide) rfl
     ⟨1, some "Grade 5"⟩ (by decide) rfl "Grade 5" "A" rfl rfl⟩

/-- Claim C6 as stated fails, in two ways.  In the reachable store whose only
class was created without a name, Jane's `section_id` names an existing
section whose `class_id` names an existing class, the create succeeds, and the
active listing shows Jane with a `NULL` `class_name`: no text label at all.
In the store of class Grade 5 and section A, Jane sent with `section_id` as
the string `"1"`, `phone` as the number `5550100` and `bus_stop_id` as
`9007199254740993` is listed under `Grade 5 A` with `section_id` the number
`1`, `phone` the string `"5550100"` and `bus_stop_id` `9007199254740992`. -/
theorem student_roundtrip_nameless_class :
    ((∃ sec ∈ namelessClassStore.sections, integerAffinity janeBody.section_id = .integer sec.id ∧
        ∃ c ∈ namelessClassStore.classes, sec.class_id = .integer c.id) ∧
      postStudents namelessClassStore janeBody =
        ({ namelessClassStore with
            students := [{ janeBody.toFields with id := 1, status := "Active" }] },
         .id (some 1)) ∧
      getStudents (postStudents namelessClassStore janeBody).1 =
        [⟨{ janeBody.toFields with id := 1, status := "Active" }, none⟩] ∧
      ¬ ∃ v ∈ getStudents (postStudents namelessClassStore janeBody).1,
          ∃ label : String, v.class_name = some label) ∧
    ((postStudents gradeStore looseJaneBody).2 = .id (some 1) ∧
      (getStudents (postStudents gradeStore looseJaneBody).1).map
          (fun v => (v.row.toBody?, v.class_name)) =
        [(some { looseJaneBody with
            section_id := .number 1, phone := .string "5550100",
            bus_stop_id := .number 9007199254740992 }, some "Grade 5 A")] ∧
      ¬ ∃ v ∈ getStudents (postStudents gradeStore looseJaneBody).1,
          v.row.toBody? = some looseJaneBody) := by
  have e : getStudents (postStudents namelessClassStore janeBody).1 =
      [⟨{ janeBody.toFields with id := 1, status := "Active" }, none⟩] := by decide
  have e2 : getStudents (postStudents gradeStore looseJaneBody).1 =
      [⟨{ looseJaneBody.toFields with id := 1, status := "Active" }, some "Grade 5 A"⟩] := by
    decide
  refine ⟨⟨⟨⟨1, .integer 1, some "A", .null⟩, by decide, by decide, ⟨1, none⟩, by decide, rfl⟩,
    by decide, e, ?_⟩, by decide, ?_, ?_⟩
  · rintro ⟨v, hv, label, hl⟩
    rw [e, List.mem_singleton] at hv
    rw [hv] at hl
    exact Option.noConfusion hl
  · rw [e2]
    decide
  · rintro ⟨v, hv, hb⟩
    rw [e2, List.mem_singleton] at hv
    rw [hv] at hb
    revert hb
    decide

/-- Claim C7, on the code.  Creating the role Teacher again, the class
Grade 5 again, or section A of class 1 again leaves the store unchanged, and
the answer is the success answer `res.json({ id: this.lastID })` with no id,
not an error answer; `POST /api/students`, which checks `err`, answers a
constraint violation with an error. -/
theorem duplicate_create_answers_success :
    postStaffRoles Store.init (.string "Teacher") = (Store.init, .id none) ∧
    postClasses gradeStore (.string "Grade 5") = (gradeStore, .id none) ∧
    postSections gradeStore (.number 1) (.string "A") .null = (gradeStore, .id none) ∧
    (Response.id none).isError = false ∧
    (postStudents gradeStore emptyStudentBody).2.isError = true := by
  decide

/-- Claim C8.  For a store with unique keys and a key `k`, on each of
`staff_roles`, `classes`, `sections` and `fee_structures`: when a row `r` has
key `k`, the delete handler answers `changes = 1` and the new store is the old
one with `r` erased from that table, where `r` no longer occurs; when no row
has key `k` it answers `changes = 0` and the store is unchanged. -/
theorem delete_by_key (db : Store) (hk : db.KeysUnique) (k : Nat) :
    ((∀ r ∈ db.staff_roles, r.id = k →
        deleteStaffRoles db k =
          ({ db with staff_roles := db.staff_roles.erase r }, .changes (some 1)) ∧
        r ∉ db.staff_roles.erase r) ∧
      (k ∉ db.staff_roles.map (·.id) → deleteStaffRoles db k = (db, .changes (some 0)))) ∧
    ((∀ r ∈ db.classes, r.id = k →
        deleteClasses db k = ({ db with classes := db.classes.erase r }, .changes (some 1)) ∧
        r ∉ db.classes.erase r) ∧
      (k ∉ db.classes.map (·.id) → deleteClasses db k = (db, .changes (some 0)))) ∧
    ((∀ r ∈ db.sections, r.id = k →
        deleteSections db k = ({ db with sections := db.sections.erase r }, .changes (some 1)) ∧
        r ∉ db.sections.erase r) ∧
      (k ∉ db.sections.map (·.id) → deleteSections db k = (db, .changes (some 0)))) ∧
    ((∀ r ∈ db.fee_structures, r.id = k →
        deleteFeeStructures db k =
          ({ db with fee_structures := db.fee_structures.erase r }, .changes (some 1)) ∧
        r ∉ db.fee_structures.erase r) ∧
      (k ∉ db.fee_structures.map (·.id) →
        deleteFeeStructures db k = (db, .changes (some 0)))) := by
  refine ⟨⟨?_, ?_⟩, ⟨?_, ?_⟩, ⟨?_, ?_⟩, ⟨?_, ?_⟩⟩
  · rintro r hr rfl
    have hnd : db.staff_roles.Nodup := List.Nodup.of_map _ hk.staff_roles
    refine ⟨?_, fun h => (List.Nodup.mem_erase_iff hnd).1 h |>.1 rfl⟩
    simp only [deleteStaffRoles, deleteStaffRole, answerChanges, RunResult.changed]
    rw [filter_key_ne_eq_erase (fun x : StaffRoleRow => x.id) hk.staff_roles hr,
      filter_key_eq_singleton (fun x : StaffRoleRow => x.id) hk.staff_roles hr]
    rfl
  · intro hk0
    simp only [deleteStaffRoles, deleteStaffRole, answerChanges, RunResult.changed]
    rw [filter_key_ne_eq_self (fun x : StaffRoleRow => x.id) hk0,
      filter_key_eq_nil (fun x : StaffRoleRow => x.id) hk0]
    rfl
  · rintro r hr rfl
    have hnd : db.classes.Nodup := List.Nodup.of_map _ hk.classes
    refine ⟨?_, fun h => (List.Nodup.mem_erase_iff hnd).1 h |>.1 rfl⟩
    simp only [deleteClasses, deleteClass, answerChanges, RunResult.changed]
    rw [filter_key_ne_eq_erase (fun x : ClassRow => x.id) hk.classes hr,
      filter_key_eq_singleton (fun x : ClassRow => x.id) hk.classes hr]
    rfl
  · intro hk0
    simp only [deleteClasses, deleteClass, answerChanges, RunResult.changed]
    rw [filter_key_ne_eq_self (fun x : ClassRow => x.id) hk0,
      filter_key_eq_nil (fun x : ClassRow => x.id) hk0]
    rfl
  · rintro r hr rfl
    have hnd : db.sections.Nodup := List.Nodup.of_map _ hk.sections
    refine ⟨?_, fun h => (List.Nodup.mem_erase_iff hnd).1 h |>.1 rfl⟩
    simp only [deleteSections, deleteSection, answerChanges, RunResult.changed]
    rw [filter_key_ne_eq_erase (fun x : SectionRow => x.id) hk.sections hr,
      filter_key_eq_singleton (fun x : SectionRow => x.id) hk.sections hr]
    rfl
  · intro hk0
    simp only [deleteSections, deleteSection, answerChanges, RunResult.changed]
    rw [filter_key_ne_eq_self (fun x : SectionRow => x.id) hk0,
      filter_key_eq_nil (fun x : SectionRow => x.id) hk0]
    rfl
  · rintro r hr rfl
    have hnd : db.fee_structures.Nodup := List.Nodup.of_map _ hk.fee_structures
    refine ⟨?_, fun h => (List.Nodup.mem_erase_iff hnd).1 h |>.1 rfl⟩
    simp only [deleteFeeStructures, deleteFeeStructure, answerChanges, RunResult.changed]
    rw [filter_key_ne_eq_erase (fun x : FeeStructureRow => x.id) hk.fee_structures hr,
      filter_key_eq_singleton (fun x : FeeStructureRow => x.id) hk.fee_structures hr]
    rfl
  · intro hk0
    simp only [deleteFeeStructures, deleteFeeStructure, answerChanges, RunResult.changed]
    rw [filter_key_ne_eq_self (fun x : FeeStructureRow => x.id) hk0,
      filter_key_eq_nil (fun x : FeeStructureRow => x.id) hk0]
    rfl

theorem delete_by_key_witness :
    gradeStore.KeysUnique ∧
    deleteClasses gradeStore 1 =
      ({ gradeStore with classes := gradeStore.classes.erase ⟨1, some "Grade 5"⟩ },
       .changes (some 1)) ∧
    deleteClasses gradeStore 7 = (gradeStore, .changes (some 0)) :=
  ⟨(reachable_run Reachable.init _).keysUnique,
   ((delete_by_key gradeStore (reachable_run Reachable.init _).keysUnique 1).2.1.1
      ⟨1, some "Grade 5"⟩ (by decide) rfl).1,
   (delete_by_key gradeStore (reachable_run Reachable.init _).keysUnique 7).2.1.2 (by decide)⟩

/-- Claim C9, on the code.  Section A of class Grade 5 is in the section
listing; `DELETE /api/classes/1` answers `changes = 1` and removes the class;
the section row is still in `sections` with `class_id = 1`, and the unfiltered
section listing is then empty. -/
theorem delete_class_orphans_section :
    Reachable gradeStore ∧
    getSections gradeStore none =
      [⟨⟨1, .integer 1, some "A", .null⟩, none, some "Grade 5"⟩] ∧
    (deleteClasses gradeStore 1).2 = .changes (some 1) ∧
    (deleteClasses gradeStore 1).1.classes = [] ∧
    (deleteClasses gradeStore 1).1.sections = [⟨1, .integer 1, some "A", .null⟩] ∧
    getSections (deleteClasses gradeStore 1).1 none = [] :=
  ⟨reachable_run Reachable.init _, by decide, by decide, by decide, by decide, by decide⟩

/-- Claim C10, amended.  For a store with unique keys and a key `k`, for
students and for staff: when a row `s` has key `k` and the submitted name is
present, the update answers `changes = 1`, the only row with key `k` is then
the submitted field set, as its columns keep it, under the id and the status
of `s`, every other row is as before and no other table changed; that row
sends back every submitted field unchanged when the text fields are strings
(or null) and the references whole numbers below `2 ^ 53` in magnitude (or
null).  When a row has key `k` and the submitted name is absent, the update
answers status 500 and the store is unchanged; when no row has key `k`, it
answers `changes = 0` and the store is unchanged. -/
theorem update_full_row_replace (db : Store) (hk : db.KeysUnique) (k : Nat) :
    (∀ (b : StudentBody) (s : StudentRow), s ∈ db.students → s.id = k → b.name ≠ .null →
      (putStudents db k b).2 = .changes (some 1) ∧
      { b.toFields with id := k, status := s.status } ∈ (putStudents db k b).1.students ∧
      (∀ t ∈ (putStudents db k b).1.students, t.id = k →
        t = { b.toFields with id := k, status := s.status }) ∧
      (putStudents db k b).1.students.filter (fun t => t.id != k) =
        db.students.filter (fun t => t.id != k) ∧
      (putStudents db k b).1.students.length = db.students.length ∧
      (putStudents db k b).1 = { db with students := (putStudents db k b).1.students } ∧
      (b.typed = true →
        ({ b.toFields with id := k, status := s.status } : StudentRow).toBody? = some b)) ∧
    (∀ (b : StudentBody), k ∈ db.students.map (·.id) → b.name = .null →
      putStudents db k b =
        (db, .error 500 "SQLITE_CONSTRAINT: NOT NULL constraint failed: students.name")) ∧
    (∀ (b : StudentBody), k ∉ db.students.map (·.id) →
      putStudents db k b = (db, .changes (some 0))) ∧
    (∀ (b : StaffBody) (s : StaffRow), s ∈ db.staff → s.id = k → b.name ≠ .null →
      (putStaff db k b).2 = .changes (some 1) ∧
      { b.toFields with id := k, status := s.status } ∈ (putStaff db k b).1.staff ∧
      (∀ t ∈ (putStaff db k b).1.staff, t.id = k →
        t = { b.toFields with id := k, status := s.status }) ∧
      (putStaff db k b).1.staff.filter (fun t => t.id != k) =
        db.staff.filter (fun t => t.id != k) ∧
      (putStaff db k b).1.staff.length = db.staff.length ∧
      (putStaff db k b).1 = { db with staff := (putStaff db k b).1.staff } ∧
      (b.typed = true →
        ({ b.toFields with id := k, status := s.status } : StaffRow).toBody? = some b)) ∧
    (∀ (b : StaffBody), k ∈ db.staff.map (·.id) → b.name = .null →
      putStaff db k b =
        (db, .error 500 "SQLITE_CONSTRAINT: NOT NULL constraint failed: staff.name")) ∧
    (∀ (b : StaffBody), k ∉ db.staff.map (·.id) →
      putStaff db k b = (db, .changes (some 0))) := by
  refine ⟨?_, ?_, ?_, ?_, ?_, ?_⟩
  · rintro b s hs rfl hb
    have hnone : b.toFields.name.isNone = false := by
      cases hbn : textAffinity b.name with
      | none => exact absurd (textAffinity_eq_none.1 hbn) hb
      | some _ => simp [StudentBody.toFields, hbn]
    have hpost : putStudents db s.id b =
        ({ db with students := db.students.map fun t =>
            if t.id == s.id then { b.toFields with id := t.id, status := t.status } else t },
         .changes (some (db.students.filter fun t => t.id == s.id).length)) := by
      simp [putStudents, updateStudent, hnone, answerChangesChecked, RunResult.changed]
    rw [hpost]
    refine ⟨?_, ?_, ?_, ?_, ?_, rfl, studentBody_sent_back⟩
    · rw [filter_key_eq_singleton (fun t : StudentRow => t.id) hk.students hs]; rfl
    · refine List.mem_map.2 ⟨s, hs, ?_⟩
      simp
    · intro t ht e
      exact eq_of_mem_map_update (fun t : StudentRow => t.id)
        (fun t => { b.toFields with id := t.id, status := t.status }) hk.students hs ht e
    · exact filter_ne_map_update (fun t : StudentRow => t.id) s.id
        (fun t => { b.toFields with id := t.id, status := t.status }) (fun _ => rfl) db.students
    · exact List.length_map _ _
  · intro b hmem hb
    obtain ⟨s, hs, rfl⟩ := List.mem_map.1 hmem
    have := any_key_eq_true (fun t : StudentRow => t.id) hs
    simp only at this
    simp [putStudents, updateStudent, StudentBody.toFields, hb, textAffinity, this,
      answerChangesChecked, RunResult.failed]
  · intro b hmem
    have h1 := any_key_eq_false (fun t : StudentRow => t.id) hmem
    have h2 := map_update_of_not_mem (fun t : StudentRow => t.id)
      (fun t => { b.toFields with id := t.id, status := t.status }) hmem
    have h3 := filter_key_eq_nil (fun t : StudentRow => t.id) hmem
    simp only at h1 h2 h3
    have hcond : ¬ (b.toFields.name.isNone = true ∧
        (db.students.any fun s => s.id == k) = true) := by
      rw [h1]; simp
    simp only [putStudents, updateStudent, if_neg hcond, h2, h3, answerChangesChecked,
      RunResult.changed, List.length_nil]
  · rintro b s hs rfl hb
    have hnone : b.toFields.name.isNone = false := by
      cases hbn : textAffinity b.name with
      | none => exact absurd (textAffinity_eq_none.1 hbn) hb
      | some _ => simp [StaffBody.toFields, hbn]
    have hpost : putStaff db s.id b =
        ({ db with staff := db.staff.map fun t =>
            if t.id == s.id then { b.toFields with id := t.id, status := t.status } else t },
         .changes (some (db.staff.filter fun t => t.id == s.id).length)) := by
      simp [putStaff, updateStaff, hnone, answerChangesChecked, RunResult.changed]
    rw [hpost]
    refine ⟨?_, ?_, ?_, ?_, ?_, rfl, staffBody_sent_back⟩
    · rw [filter_key_eq_singleton (fun t : StaffRow => t.id) hk.staff hs]; rfl
    · refine List.mem_map.2 ⟨s, hs, ?_⟩
      simp
    · intro t ht e
      exact eq_of_mem_map_update (fun t : StaffRow => t.id)
        (fun t => { b.toFields with id := t.id, status := t.status }) hk.staff hs ht e
    · exact filter_ne_map_update (fun t : StaffRow => t.id) s.id
        (fun t => { b.toFields with id := t.id, status := t.status }) (fun _ => rfl) db.staff
    · exact List.length_map _ _
  · intro b hmem hb
    obtain ⟨s, hs, rfl⟩ := List.mem_map.1 hmem
    have := any_key_eq_true (fun t : StaffRow => t.id) hs
    simp only at this
    simp [putStaff, updateStaff, StaffBody.toFields, hb, textAffinity, this,
      answerChangesChecked, RunResult.failed]
  · intro b hmem
    have h1 := any_key_eq_false (fun t : StaffRow => t.id) hmem
    have h2 := map_update_of_not_mem (fun t : StaffRow => t.id)
      (fun t => { b.toFields with id := t.id, status := t.status }) hmem
    have h3 := filter_key_eq_nil (fun t : StaffRow => t.id) hmem
    simp only at h1 h2 h3
    have hcond : ¬ (b.toFields.name.isNone = true ∧
        (db.staff.any fun s => s.id == k) = true) := by
      rw [h1]; simp
    simp only [putStaff, updateStaff, if_neg hcond, h2, h3, answerChangesChecked,
      RunResult.changed, List.length_nil]

theorem update_full_row_replace_witness :
    schoolStore.KeysUnique ∧
    (putStudents schoolStore 2 janeBody).2 = .changes (some 1) ∧
    { janeBody.toFields with id := 2, status := "Active" } ∈
      (putStudents schoolStore 2 janeBody).1.students ∧
    ({ janeBody.toFields with id := 2, status := "Active" } : StudentRow).toBody? =
      some janeBody ∧
    putStudents schoolStore 9 janeBody = (schoolStore, .changes (some 0)) :=
  ⟨(reachable_run (reachable_run Reachable.init _) _).keysUnique,
   ((update_full_row_replace schoolStore
      (reachable_run (reachable_run Reachable.init _) _).keysUnique 2).1 janeBody
      { tomBody.toFields with id := 2, status := "Active" } (by decide) rfl (by decide)).1,
   ((update_full_row_replace schoolStore
      (reachable_run (reachable_run Reachable.init _) _).keysUnique 2).1 janeBody
      { tomBody.toFields with id := 2, status := "Active" } (by decide) rfl (by decide)).2.1,
   ((update_full_row_replace schoolStore
      (reachable_run (reachable_run Reachable.init _) _).keysUnique 2).1 janeBody
      { tomBody.toFields with id := 2, status := "Active" } (by decide) rfl
      (by decide)).2.2.2.2.2.2 (by decide),
   (update_full_row_replace schoolStore
      (reachable_run (reachable_run Reachable.init _) _).keysUnique 9).2.2.1 janeBody
      (by decide)⟩

/-- Claim C10 as stated fails, in two ways.  Jane is the student with key 1.
`PUT /api/students/1` with a field set without name answers status 500 with
the `NOT NULL` message instead of `changes = 1`, and the store is unchanged.
`PUT /api/students/1` with `section_id` as the string `"1"`, `phone` as the
number `5550100` and `bus_stop_id` as `9007199254740993` answers
`changes = 1`, and Jane is then listed with `section_id` the number `1`,
`phone` the string `"5550100"` and `bus_stop_id` `9007199254740992`. -/
theorem update_without_name_fails :
    ({ janeBody.toFields with id := 1, status := "Active" } ∈ janeStore.students ∧
      putStudents janeStore 1 emptyStudentBody =
        (janeStore,
         .error 500 "SQLITE_CONSTRAINT: NOT NULL constraint failed: students.name") ∧
      (putStudents janeStore 1 emptyStudentBody).2 ≠ .changes (some 1)) ∧
    ((putStudents janeStore 1 looseJaneBody).2 = .changes (some 1) ∧
      (getStudents (putStudents janeStore 1 looseJaneBody).1).map (fun v => v.row.toBody?) =
        [some { looseJaneBody with
          section_id := .number 1, phone := .string "5550100",
          bus_stop_id := .number 9007199254740992 }] ∧
      ¬ ∃ v ∈ getStudents (putStudents janeStore 1 looseJaneBody).1,
          v.row.toBody? = some looseJaneBody) := by
  have e : getStudents (putStudents janeStore 1 looseJaneBody).1 =
      [⟨{ looseJaneBody.toFields with id := 1, status := "Active" }, some "Grade 5 A"⟩] := by
    decide
  refine ⟨by decide, by decide, ?_, ?_⟩
  · rw [e]
    decide
  · rintro ⟨v, hv, hb⟩
    rw [e, List.mem_singleton] at hv
    rw [hv] at hb
    revert hb
    decide

end SchoolDB
